import Mathlib

/-!
Shallow embedding of `scripts/validate.py` (AgentChanti KB Registry validation
script) and proofs about its checks, report and exit status.

Modelling conventions:
* Python/YAML values are modelled by `PyValue` (floats are not needed by any
  statement below and are omitted).
* `yaml.safe_load` is taken as a parameter (`yamlLoad : String → Option PyValue`,
  `none` meaning a `YAMLError`); everything after it is translated directly
  from the source.
* File paths are carried as the path string relative to the repository root,
  matching what `path.relative_to(ROOT)` renders into the messages.
* Runtime type errors that the Python code can actually hit
  (`AttributeError` on `fm.keys()` for a non-dict frontmatter, `TypeError`
  on iterating a non-iterable `related_errors`, `TypeError` on a set-membership
  test with an unhashable value) are modelled by `Except` with the
  `CheckResult` accumulated at the moment of the crash, mirroring the global
  `results` object; an uncaught Python exception makes the process exit 1.
* Python `str.strip()` is modelled over the character list and `\d` of the semver
  regexp by ASCII `Char.isDigit`; no statement below depends on the exotic
  whitespace or unicode-digit corners where those differ.
-/

namespace Validate

inductive PyValue where
  | vNone
  | vBool (b : Bool)
  | vInt (n : Int)
  | vStr (s : String)
  | vList (xs : List PyValue)
  | vDict (kvs : List (String × PyValue))
deriving Repr

abbrev PyDict := List (String × PyValue)

mutual

def pyRepr : PyValue → String
  | .vNone => "None"
  | .vBool b => if b then "True" else "False"
  | .vInt n => toString n
  | .vStr s => "'" ++ s ++ "'"
  | .vList xs => "[" ++ pyReprItems xs ++ "]"
  | .vDict kvs => "\x7b" ++ pyReprPairs kvs ++ "\x7d"

def pyReprItems : List PyValue → String
  | [] => ""
  | [x] => pyRepr x
  | x :: y :: rest => pyRepr x ++ ", " ++ pyReprItems (y :: rest)

def pyReprPairs : List (String × PyValue) → String
  | [] => ""
  | [(k, v)] => "'" ++ k ++ "': " ++ pyRepr v
  | (k, v) :: kv :: rest => "'" ++ k ++ "': " ++ pyRepr v ++ ", " ++ pyReprPairs (kv :: rest)

end

/-- Python `str(v)`. -/
def pyStr : PyValue → String
  | .vStr s => s
  | v => pyRepr v

/-- Python truthiness. -/
def truthy : PyValue → Bool
  | .vNone => false
  | .vBool b => b
  | .vInt n => n != 0
  | .vStr s => !s.isEmpty
  | .vList xs => !xs.isEmpty
  | .vDict kvs => !kvs.isEmpty

/-- Lookup in a Python dict (keys are unique in a real dict; first match). -/
def dictGet (kvs : PyDict) (k : String) : Option PyValue :=
  match kvs with
  | [] => none
  | (k', v) :: rest => if k' == k then some v else dictGet rest k

/-- Python `d.get(k, default)`. -/
def dictGetD (kvs : PyDict) (k : String) (d : PyValue) : PyValue :=
  match dictGet kvs k with
  | some v => v
  | none => d

/-- `entry.get(k)` where `entry` is known to be a dict in every reachable call. -/
def entryGet (e : PyValue) (k : String) : Option PyValue :=
  match e with
  | .vDict kvs => dictGet kvs k
  | _ => none

/-- `entry.get(k, default)`. -/
def entryGetD (e : PyValue) (k : String) (d : PyValue) : PyValue :=
  match entryGet e k with
  | some v => v
  | none => d

/-- The f-string rendering of `entry.get('id', '?')`. -/
def entryIdStr (e : PyValue) : String :=
  match entryGet e "id" with
  | some v => pyStr v
  | none => "?"

def dictHasKey (kvs : PyDict) (k : String) : Bool :=
  match dictGet kvs k with
  | some _ => true
  | none => false

/-- Lexicographic comparison by code point, as Python compares strings. -/
def charListLe : List Char → List Char → Bool
  | [], _ => true
  | _ :: _, [] => false
  | a :: as, b :: bs =>
    if a.toNat < b.toNat then true
    else if b.toNat < a.toNat then false
    else charListLe as bs

def strLe (a b : String) : Bool := charListLe a.data b.data

/-- Insertion sort step, lexicographic and stable like Python `sorted`. -/
def insertSorted (s : String) : List String → List String
  | [] => [s]
  | t :: rest => if strLe s t then s :: t :: rest else t :: insertSorted s rest

def sortStrings (l : List String) : List String :=
  l.foldr insertSorted []

/-- Python `s.strip()` (over the whitespace characters the inputs use). -/
def pyStrip (s : String) : String :=
  String.mk (((s.data.dropWhile Char.isWhitespace).reverse.dropWhile
    Char.isWhitespace).reverse)

/-- `sep.join(l)`. -/
def joinSep (sep : String) : List String → String
  | [] => ""
  | [x] => x
  | x :: y :: rest => x ++ sep ++ joinSep sep (y :: rest)

def concatAll (l : List String) : String :=
  l.foldl (fun a b => a ++ b) ""

/-- Splitting on a one-character separator, over code points. -/
def splitOnChar (c : Char) : List Char → List (List Char)
  | [] => [[]]
  | x :: xs =>
    if x == c then [] :: splitOnChar c xs
    else
      match splitOnChar c xs with
      | [] => [[x]]
      | g :: gs => (x :: g) :: gs

-- ── Constants of validate.py ────────────────────────────────────────────────

def VALID_SEVERITIES : List String := ["critical", "warning", "info"]
def VALID_CATEGORIES : List String := ["pattern", "adr", "doc", "behavioral", "error"]
def VALID_LANGUAGES : List String :=
  ["all", "python", "javascript", "typescript", "java", "go", "rust", "csharp"]

def MD_REQUIRED_FIELDS : List String :=
  ["id", "title", "category", "language", "version", "created_at"]
def YML_REQUIRED_FIELDS : List String :=
  ["id", "error_type", "severity", "pattern", "fix_template", "tags"]

/-- `SEMVER_RE.match(s)` with the pattern `^\d+\.\d+\.\d+$`: exactly three
non-empty all-digit components separated by dots. -/
def isSemver (s : String) : Bool :=
  match splitOnChar '.' s.data with
  | [a, b, c] => !a.isEmpty && a.all Char.isDigit
      && !b.isEmpty && b.all Char.isDigit
      && !c.isEmpty && c.all Char.isDigit
  | _ => false

-- ── Result tracking ─────────────────────────────────────────────────────────

structure CheckResult where
  errors : List (String × String)
  passes : List (String × String)
deriving Repr, DecidableEq

def CheckResult.fail (r : CheckResult) (check msg : String) : CheckResult :=
  { r with errors := r.errors ++ [(check, msg)] }

def CheckResult.pass (r : CheckResult) (check msg : String) : CheckResult :=
  { r with passes := r.passes ++ [(check, msg)] }

def CheckResult.passed (r : CheckResult) : Bool :=
  r.errors.length == 0

def emptyResults : CheckResult := ⟨[], []⟩

/-- The Python exceptions the checking code can actually raise. -/
inductive Crash where
  | attributeError
  | typeError
deriving Repr, DecidableEq

/-- A crash together with the `results` accumulated when it happened. -/
abbrev CrashState := Crash × CheckResult

-- ── Helpers: parsing ────────────────────────────────────────────────────────

def listStartsWith : List Char → List Char → Bool
  | _, [] => true
  | [], _ :: _ => false
  | a :: as, b :: bs => a == b && listStartsWith as bs

def findSubAux : List Char → List Char → Nat → Option Nat
  | [], pat, i => if pat.isEmpty then some i else none
  | c :: rest, pat, i =>
    if listStartsWith (c :: rest) pat then some i else findSubAux rest pat (i + 1)

/-- Python `s.index(pat, start)` (over code points), `none` for `ValueError`. -/
def strIndexFrom (s pat : String) (start : Nat) : Option Nat :=
  (findSubAux (s.data.drop start) pat.data 0).map (· + start)

/-- Python slice `s[a:b]` (over code points, `a ≤ b` in every use below). -/
def strSlice (s : String) (a b : Nat) : String :=
  String.mk ((s.data.drop a).take (b - a))

/-- `parse_md_frontmatter`: `yamlLoad` stands for `yaml.safe_load`
(`none` = `YAMLError`). Returns `none` on failure, mirroring
missing leading `---` (no parse attempt), `ValueError` from `content.index`,
and `YAMLError`; a falsy parse result is replaced by `\x7b\x7d` (`or \x7b\x7d`). -/
def parse_md_frontmatter (yamlLoad : String → Option PyValue) (content : String) :
    Option PyValue :=
  if listStartsWith content.data "---".data then
    match strIndexFrom content "\n---" 3 with
    | none => none
    | some e =>
      match yamlLoad (strSlice content 3 e) with
      | none => none
      | some v => some (if truthy v then v else .vDict [])
  else
    none

/-- `parse_yml_file`: the whole file parsed by `yaml.safe_load`; only a list
result is accepted. -/
def parse_yml_file (yamlLoad : String → Option PyValue) (content : String) :
    Option (List PyValue) :=
  match yamlLoad content with
  | none => none
  | some (.vList xs) => some xs
  | some _ => none

structure MdFile where
  path : String
  content : String

structure YmlFile where
  path : String
  content : String

/-- The registry as enumerated by `find_md_files` / `find_yml_files`
(paths relative to the root, in traversal order). -/
structure Registry where
  mds : List MdFile
  ymls : List YmlFile

/-- The registry after the load phase: each file paired with its parse result. -/
structure ParsedRegistry where
  mds : List (String × Option PyValue)
  ymls : List (String × Option (List PyValue))

def parseRegistry (yamlLoad : String → Option PyValue) (reg : Registry) :
    ParsedRegistry where
  mds := reg.mds.map (fun f => (f.path, parse_md_frontmatter yamlLoad f.content))
  ymls := reg.ymls.map (fun f => (f.path, parse_yml_file yamlLoad f.content))

-- ── Check A: MD frontmatter fields ──────────────────────────────────────────

/-- `MD_REQUIRED_FIELDS - set(fm.keys())`, rendered in the sorted order the
message uses. -/
def md_missing (kvs : PyDict) : List String :=
  sortStrings (MD_REQUIRED_FIELDS.filter (fun f => !dictHasKey kvs f))

def md_malformed_message (p : String) : String :=
  "  ✗ " ++ p ++ ": Missing or malformed frontmatter"

def md_missing_message (p : String) (kvs : PyDict) : String :=
  "  ✗ " ++ p ++ ": Missing fields: " ++ joinSep ", " (md_missing kvs)

def check_md_frontmatter_go :
    List (String × Option PyValue) → CheckResult → List (String × PyDict) → Nat →
    Except CrashState (CheckResult × List (String × PyDict) × Nat)
  | [], res, valid, failCount => .ok (res, valid, failCount)
  | (p, fm?) :: rest, res, valid, failCount =>
    match fm? with
    | none =>
      check_md_frontmatter_go rest (res.fail "frontmatter" (md_malformed_message p))
        valid (failCount + 1)
    | some (.vDict kvs) =>
      if (md_missing kvs).isEmpty then
        check_md_frontmatter_go rest res (valid ++ [(p, kvs)]) failCount
      else
        check_md_frontmatter_go rest (res.fail "frontmatter" (md_missing_message p kvs))
          valid (failCount + 1)
    | some _ => .error (.attributeError, res)

def md_summary_pass (n : Nat) : String :=
  "  ✓ PASS [frontmatter] All " ++ toString n ++ " .md files have valid frontmatter"

def md_summary_fail (failCount n : Nat) : String :=
  "  ✗ FAIL [frontmatter] " ++ toString failCount ++ "/" ++ toString n ++
    " .md files have frontmatter issues"

def check_md_frontmatter (mds : List (String × Option PyValue)) (res : CheckResult) :
    Except CrashState (CheckResult × List (String × PyDict)) :=
  match check_md_frontmatter_go mds res [] 0 with
  | .error e => .error e
  | .ok (res', valid, failCount) =>
    if failCount == 0 then
      .ok (res'.pass "frontmatter" (md_summary_pass mds.length), valid)
    else
      .ok (res'.fail "frontmatter" (md_summary_fail failCount mds.length), valid)

-- ── Check B: YML error entry fields ─────────────────────────────────────────

def yml_missing (kvs : PyDict) : List String :=
  sortStrings (YML_REQUIRED_FIELDS.filter (fun f => !dictHasKey kvs f))

/-- The `file_errors` loop of `check_yml_entries`, with running index `i`. -/
def yml_entry_errors_go : Nat → List PyValue → List String
  | _, [] => []
  | i, e :: rest =>
    match e with
    | .vDict kvs =>
      (if (yml_missing kvs).isEmpty then [] else
        ["    Entry " ++ toString i ++ " (id=" ++ entryIdStr e ++ "): Missing fields: " ++
          joinSep ", " (yml_missing kvs)]) ++ yml_entry_errors_go (i + 1) rest
    | _ => ("    Entry " ++ toString i ++ ": Not a dict") :: yml_entry_errors_go (i + 1) rest

def yml_entry_errors (entries : List PyValue) : List String :=
  yml_entry_errors_go 0 entries

def yml_parse_fail_message (p : String) : String :=
  "  ✗ " ++ p ++ ": Not a valid YAML list or parse error"

def yml_schema_message (p : String) (entries : List PyValue) : String :=
  "  ✗ " ++ p ++ ":\n" ++ joinSep "\n" (yml_entry_errors entries)

def yml_summary_pass (n total : Nat) : String :=
  "  ✓ PASS [yml-schema] All " ++ toString n ++
    " .yml files have valid entry schemas (" ++ toString total ++ " total entries)"

def yml_summary_fail (failCount n : Nat) : String :=
  "  ✗ FAIL [yml-schema] " ++ toString failCount ++ "/" ++ toString n ++
    " .yml files have schema issues"

def check_yml_entries_go :
    List (String × Option (List PyValue)) → CheckResult → List (String × List PyValue) →
    Nat → Nat → CheckResult × List (String × List PyValue) × Nat × Nat
  | [], res, valid, failCount, total => (res, valid, failCount, total)
  | (p, entries?) :: rest, res, valid, failCount, total =>
    match entries? with
    | none =>
      check_yml_entries_go rest (res.fail "yml-schema" (yml_parse_fail_message p))
        valid (failCount + 1) total
    | some entries =>
      if (yml_entry_errors entries).isEmpty then
        check_yml_entries_go rest res (valid ++ [(p, entries)]) failCount
          (total + entries.length)
      else
        check_yml_entries_go rest (res.fail "yml-schema" (yml_schema_message p entries))
          valid (failCount + 1) total

def check_yml_entries (ymls : List (String × Option (List PyValue))) (res : CheckResult) :
    CheckResult × List (String × List PyValue) :=
  match check_yml_entries_go ymls res [] 0 0 with
  | (res', valid, failCount, total) =>
    if failCount == 0 then
      (res'.pass "yml-schema" (yml_summary_pass ymls.length total), valid)
    else
      (res'.fail "yml-schema" (yml_summary_fail failCount ymls.length), valid)

-- ── Check C: No duplicate IDs ───────────────────────────────────────────────

/-- `id_locations.setdefault(k, []).append(loc)` on an insertion-ordered dict. -/
def id_loc_add (m : List (String × List String)) (k loc : String) :
    List (String × List String) :=
  match m with
  | [] => [(k, [loc])]
  | (k', locs) :: rest =>
    if k' == k then (k', locs ++ [loc]) :: rest else (k', locs) :: id_loc_add rest k loc

/-- `str(fm.get("id", "")).strip()`. -/
def strippedId (kvs : PyDict) : String :=
  pyStrip (pyStr (dictGetD kvs "id" (.vStr "")))

/-- `str(entry.get("id", "")).strip()`. -/
def strippedIdE (e : PyValue) : String :=
  pyStrip (pyStr (entryGetD e "id" (.vStr "")))

def md_id_step (m : List (String × List String)) (p : String) (kvs : PyDict) :
    List (String × List String) :=
  let idVal := strippedId kvs
  if idVal == "" then m else id_loc_add m idVal (p ++ " (frontmatter)")

def yml_id_step (m : List (String × List String)) (p : String) (e : PyValue) :
    List (String × List String) :=
  let idVal := strippedIdE e
  if idVal == "" then m else id_loc_add m idVal p

def md_id_fold (m : List (String × List String)) (mdValid : List (String × PyDict)) :
    List (String × List String) :=
  mdValid.foldl (fun m pk => md_id_step m pk.1 pk.2) m

def yml_file_id_fold (m : List (String × List String)) (p : String)
    (entries : List PyValue) : List (String × List String) :=
  entries.foldl (fun m e => yml_id_step m p e) m

def yml_id_fold (m : List (String × List String))
    (ymlValid : List (String × List PyValue)) : List (String × List String) :=
  ymlValid.foldl (fun m pe => yml_file_id_fold m pe.1 pe.2) m

/-- The `id_locations` dict built by `check_no_duplicate_ids`. -/
def id_locations (mdValid : List (String × PyDict))
    (ymlValid : List (String × List PyValue)) : List (String × List String) :=
  yml_id_fold (md_id_fold [] mdValid) ymlValid

def duplicates_of (m : List (String × List String)) : List (String × List String) :=
  m.filter (fun kl => 1 < kl.2.length)

def dup_id_message (k : String) (locs : List String) : String :=
  "  ✗ FAIL [duplicate-id] ID \"" ++ k ++ "\" found in:\n      " ++
    joinSep "\n      " locs

def dup_summary_pass (total : Nat) : String :=
  "  ✓ PASS [duplicate-id] All " ++ toString total ++ " IDs are unique"

def add_dup_failures (dups : List (String × List String)) (res : CheckResult) :
    CheckResult :=
  dups.foldl (fun r kl => r.fail "duplicate-id" (dup_id_message kl.1 kl.2)) res

def check_no_duplicate_ids (mdValid : List (String × PyDict))
    (ymlValid : List (String × List PyValue)) (res : CheckResult) :
    CheckResult × List String :=
  let m := id_locations mdValid ymlValid
  let dups := duplicates_of m
  if dups.isEmpty then
    (res.pass "duplicate-id" (dup_summary_pass m.length), m.map (·.1))
  else
    (add_dup_failures dups res, m.map (·.1))

-- ── Check D: related_errors references exist ────────────────────────────────

/-- Python `for x in v`: the element list, or `none` for `TypeError`
(strings iterate their characters, dicts their keys). -/
def pyIterate : PyValue → Option (List PyValue)
  | .vList xs => some xs
  | .vStr s => some (s.data.map (fun c => .vStr (String.mk [c])))
  | .vDict kvs => some (kvs.map (fun kv => .vStr kv.1))
  | _ => none

/-- `entry.get("related_errors", [])`. -/
def related_raw (e : PyValue) : PyValue :=
  entryGetD e "related_errors" (.vList [])

/-- `entry.get("related_errors", []) or []`. -/
def related_value (e : PyValue) : PyValue :=
  let r := related_raw e
  if truthy r then r else .vList []

def ref_failure_message (p : String) (e ref : PyValue) : String :=
  "  ✗ " ++ p ++ ": Entry \"" ++ entryIdStr e ++ "\" references unknown ID \"" ++
    pyStr ref ++ "\""

/-- The inner `for ref_id in related` loop for one entry: the failure messages,
or `none` when iterating `related` raises `TypeError`. -/
def entry_ref_failures (p : String) (e : PyValue) (allIds : List String) :
    Option (List String) :=
  match pyIterate (related_value e) with
  | none => none
  | some refs =>
    some (refs.filterMap (fun r =>
      if allIds.contains (pyStr r) then none else some (ref_failure_message p e r)))

def check_related_file_go :
    String → List PyValue → List String → CheckResult → Nat →
    Except CrashState (CheckResult × Nat)
  | _, [], _, res, failCount => .ok (res, failCount)
  | p, e :: rest, allIds, res, failCount =>
    match entry_ref_failures p e allIds with
    | none => .error (.typeError, res)
    | some msgs =>
      check_related_file_go p rest allIds
        (msgs.foldl (fun r m => r.fail "related-errors" m) res) (failCount + msgs.length)

def check_related_errors_go :
    List (String × List PyValue) → List String → CheckResult → Nat →
    Except CrashState (CheckResult × Nat)
  | [], _, res, failCount => .ok (res, failCount)
  | (p, entries) :: rest, allIds, res, failCount =>
    match check_related_file_go p entries allIds res failCount with
    | .error e => .error e
    | .ok (res', failCount') => check_related_errors_go rest allIds res' failCount'

def related_summary_pass : String :=
  "  ✓ PASS [related-errors] All related_errors references point to existing IDs"

def related_summary_fail (failCount : Nat) : String :=
  "  ✗ FAIL [related-errors] " ++ toString failCount ++
    " broken related_errors reference(s)"

def check_related_errors (ymlValid : List (String × List PyValue))
    (allIds : List String) (res : CheckResult) : Except CrashState CheckResult :=
  match check_related_errors_go ymlValid allIds res 0 with
  | .error e => .error e
  | .ok (res', failCount) =>
    if failCount == 0 then
      .ok (res'.pass "related-errors" related_summary_pass)
    else
      .ok (res'.fail "related-errors" (related_summary_fail failCount))

-- ── Check E: severity values ────────────────────────────────────────────────

/-- `v in \x7b"critical", "warning", "info"\x7d`: `none` models the `TypeError`
raised on hashing a list or dict; non-strings hash fine and compare unequal. -/
def pyInStrSet (v : PyValue) (s : List String) : Option Bool :=
  match v with
  | .vList _ => none
  | .vDict _ => none
  | .vStr t => some (s.contains t)
  | _ => some false

def severity_message (p : String) (e : PyValue) : String :=
  "  ✗ " ++ p ++ ": Entry \"" ++ entryIdStr e ++ "\" has invalid severity \"" ++
    pyStr (entryGetD e "severity" (.vStr "")) ++ "\" (must be: " ++
    joinSep ", " (sortStrings VALID_SEVERITIES) ++ ")"

def check_severity_file_go :
    String → List PyValue → CheckResult → Nat → Except CrashState (CheckResult × Nat)
  | _, [], res, failCount => .ok (res, failCount)
  | p, e :: rest, res, failCount =>
    match pyInStrSet (entryGetD e "severity" (.vStr "")) VALID_SEVERITIES with
    | none => .error (.typeError, res)
    | some true => check_severity_file_go p rest res failCount
    | some false =>
      check_severity_file_go p rest (res.fail "severity" (severity_message p e))
        (failCount + 1)

def check_severity_values_go :
    List (String × List PyValue) → CheckResult → Nat →
    Except CrashState (CheckResult × Nat)
  | [], res, failCount => .ok (res, failCount)
  | (p, entries) :: rest, res, failCount =>
    match check_severity_file_go p entries res failCount with
    | .error e => .error e
    | .ok (res', failCount') => check_severity_values_go rest res' failCount'

def severity_summary_pass : String :=
  "  ✓ PASS [severity] All severity values are valid"

def severity_summary_fail (failCount : Nat) : String :=
  "  ✗ FAIL [severity] " ++ toString failCount ++ " invalid severity value(s)"

def check_severity_values (ymlValid : List (String × List PyValue))
    (res : CheckResult) : Except CrashState CheckResult :=
  match check_severity_values_go ymlValid res 0 with
  | .error e => .error e
  | .ok (res', failCount) =>
    if failCount == 0 then
      .ok (res'.pass "severity" severity_summary_pass)
    else
      .ok (res'.fail "severity" (severity_summary_fail failCount))

-- ── Checks F, G, H: category / language / semver ────────────────────────────

/-- `str(fm.get("category", "")).strip()`. -/
def categoryOf (kvs : PyDict) : String :=
  pyStrip (pyStr (dictGetD kvs "category" (.vStr "")))

def languageOf (kvs : PyDict) : String :=
  pyStrip (pyStr (dictGetD kvs "language" (.vStr "")))

def versionOf (kvs : PyDict) : String :=
  pyStrip (pyStr (dictGetD kvs "version" (.vStr "")))

def category_message (p : String) (kvs : PyDict) : String :=
  "  ✗ " ++ p ++ ": Invalid category \"" ++ categoryOf kvs ++ "\" (must be: " ++
    joinSep ", " (sortStrings VALID_CATEGORIES) ++ ")"

def language_message (p : String) (kvs : PyDict) : String :=
  "  ✗ " ++ p ++ ": Invalid language \"" ++ languageOf kvs ++ "\" (must be: " ++
    joinSep ", " (sortStrings VALID_LANGUAGES) ++ ")"

def semver_message (p : String) (kvs : PyDict) : String :=
  "  ✗ " ++ p ++ ": Invalid version \"" ++ versionOf kvs ++
    "\" (must be X.Y.Z semver format)"

def check_category_go :
    List (String × PyDict) → CheckResult → Nat → CheckResult × Nat
  | [], res, failCount => (res, failCount)
  | (p, kvs) :: rest, res, failCount =>
    if VALID_CATEGORIES.contains (categoryOf kvs) then
      check_category_go rest res failCount
    else
      check_category_go rest (res.fail "category" (category_message p kvs)) (failCount + 1)

def category_summary_pass : String :=
  "  ✓ PASS [category] All category values are valid"

def category_summary_fail (failCount : Nat) : String :=
  "  ✗ FAIL [category] " ++ toString failCount ++ " invalid category value(s)"

def check_category_values (mdValid : List (String × PyDict)) (res : CheckResult) :
    CheckResult :=
  match check_category_go mdValid res 0 with
  | (res', failCount) =>
    if failCount == 0 then
      res'.pass "category" category_summary_pass
    else
      res'.fail "category" (category_summary_fail failCount)

def check_language_go :
    List (String × PyDict) → CheckResult → Nat → CheckResult × Nat
  | [], res, failCount => (res, failCount)
  | (p, kvs) :: rest, res, failCount =>
    if VALID_LANGUAGES.contains (languageOf kvs) then
      check_language_go rest res failCount
    else
      check_language_go rest (res.fail "language" (language_message p kvs)) (failCount + 1)

def language_summary_pass : String :=
  "  ✓ PASS [language] All language values are valid"

def language_summary_fail (failCount : Nat) : String :=
  "  ✗ FAIL [language] " ++ toString failCount ++ " invalid language value(s)"

def check_language_values (mdValid : List (String × PyDict)) (res : CheckResult) :
    CheckResult :=
  match check_language_go mdValid res 0 with
  | (res', failCount) =>
    if failCount == 0 then
      res'.pass "language" language_summary_pass
    else
      res'.fail "language" (language_summary_fail failCount)

def check_semver_go :
    List (String × PyDict) → CheckResult → Nat → CheckResult × Nat
  | [], res, failCount => (res, failCount)
  | (p, kvs) :: rest, res, failCount =>
    if isSemver (versionOf kvs) then
      check_semver_go rest res failCount
    else
      check_semver_go rest (res.fail "semver" (semver_message p kvs)) (failCount + 1)

def semver_summary_pass : String :=
  "  ✓ PASS [semver] All version fields follow semver format"

def semver_summary_fail (failCount : Nat) : String :=
  "  ✗ FAIL [semver] " ++ toString failCount ++ " invalid version value(s)"

def check_semver (mdValid : List (String × PyDict)) (res : CheckResult) :
    CheckResult :=
  match check_semver_go mdValid res 0 with
  | (res', failCount) =>
    if failCount == 0 then
      res'.pass "semver" semver_summary_pass
    else
      res'.fail "semver" (semver_summary_fail failCount)

-- ── Main: report rendering and exit status ──────────────────────────────────

def hline (c : Char) : String := String.mk (List.replicate 60 c)

/-- The output of the `print` calls of `main` (each followed by a newline)
together with the returned exit status. -/
def render_report (nMd nYml : Nat) (res : CheckResult) : String × Nat :=
  let header :=
    hline '=' ++ "\n" ++ "AgentChanti KB Registry — Validation" ++ "\n" ++
    hline '=' ++ "\n" ++ "\n" ++
    "Found " ++ toString nMd ++ " .md files and " ++ toString nYml ++ " .yml files" ++
    "\n" ++ "\n"
  let mid :=
    "\n" ++ hline '─' ++ "\n" ++ "RESULTS" ++ "\n" ++ hline '─' ++ "\n" ++
    concatAll (res.passes.map (fun cm => cm.2 ++ "\n")) ++
    (if res.errors.isEmpty then "" else
      "\n" ++ concatAll (res.errors.map (fun cm => cm.2 ++ "\n"))) ++
    "\n" ++ hline '─' ++ "\n"
  if res.passed then
    (header ++ mid ++
      "✓ ALL CHECKS PASSED (" ++ toString res.passes.length ++ " checks)" ++ "\n" ++
      hline '─' ++ "\n", 0)
  else
    (header ++ mid ++
      "✗ " ++ toString res.errors.length ++ " CHECK(S) FAILED" ++ "\n" ++
      hline '─' ++ "\n", 1)

/-- The body of `main` after the load phase, on the parsed registry: the final
`results`, the printed report and the returned exit status — or the crash
(with the `results` accumulated so far) when a check raises. -/
def runChecks (pr : ParsedRegistry) : Except CrashState (CheckResult × String × Nat) :=
  match check_md_frontmatter pr.mds emptyResults with
  | .error e => .error e
  | .ok (res1, mdValid) =>
    match check_yml_entries pr.ymls res1 with
    | (res2, ymlValid) =>
      match check_no_duplicate_ids mdValid ymlValid res2 with
      | (res3, allIds) =>
        match check_related_errors ymlValid allIds res3 with
        | .error e => .error e
        | .ok res4 =>
          match check_severity_values ymlValid res4 with
          | .error e => .error e
          | .ok res5 =>
            let res6 := check_category_values mdValid res5
            let res7 := check_language_values mdValid res6
            let res8 := check_semver mdValid res7
            match render_report pr.mds.length pr.ymls.length res8 with
            | (report, code) => .ok (res8, report, code)

/-- One run of the validation command: load then check. -/
def run_validation (yamlLoad : String → Option PyValue) (reg : Registry) :
    Except CrashState (CheckResult × String × Nat) :=
  runChecks (parseRegistry yamlLoad reg)

-- ── Observations on a run ───────────────────────────────────────────────────

/-- Whether the run completed without an unhandled exception. -/
def okOf (r : Except CrashState (CheckResult × String × Nat)) : Bool :=
  match r with
  | .ok _ => true
  | .error _ => false

/-- Process exit status: the value handed to `sys.exit`, or 1 when the
interpreter dies on an uncaught exception. -/
def exitOf (r : Except CrashState (CheckResult × String × Nat)) : Nat :=
  match r with
  | .ok (_, _, code) => code
  | .error _ => 1

/-- The exception aborting the run, if any. -/
def crashOf (r : Except CrashState (CheckResult × String × Nat)) : Option Crash :=
  match r with
  | .ok _ => none
  | .error (c, _) => some c

/-- The accumulated failure list (also defined at the moment of a crash). -/
def errorsOf (r : Except CrashState (CheckResult × String × Nat)) :
    List (String × String) :=
  match r with
  | .ok (res, _, _) => res.errors
  | .error (_, res) => res.errors

def passesOf (r : Except CrashState (CheckResult × String × Nat)) :
    List (String × String) :=
  match r with
  | .ok (res, _, _) => res.passes
  | .error (_, res) => res.passes

def reportOf (r : Except CrashState (CheckResult × String × Nat)) : Option String :=
  match r with
  | .ok (_, report, _) => some report
  | .error _ => none

-- ── The valid-record sets, as standalone projections ────────────────────────

/-- The records `check_md_frontmatter` forwards to the later checks. -/
def mdValidOf (mds : List (String × Option PyValue)) : List (String × PyDict) :=
  mds.filterMap (fun pf =>
    match pf.2 with
    | some (.vDict kvs) => if (md_missing kvs).isEmpty then some (pf.1, kvs) else none
    | _ => none)

/-- The files `check_yml_entries` forwards to the later checks. -/
def ymlValidOf (ymls : List (String × Option (List PyValue))) :
    List (String × List PyValue) :=
  ymls.filterMap (fun pe =>
    match pe.2 with
    | some entries =>
      if (yml_entry_errors entries).isEmpty then some (pe.1, entries) else none
    | none => none)

/-- The `all_ids` set returned by `check_no_duplicate_ids`. -/
def allIdsOf (pr : ParsedRegistry) : List String :=
  (id_locations (mdValidOf pr.mds) (ymlValidOf pr.ymls)).map (·.1)

/-- The `total_entries` counter of `check_yml_entries`. -/
def ymlTotalOf (ymls : List (String × Option (List PyValue))) : Nat :=
  ((ymlValidOf ymls).map (fun pe => pe.2.length)).sum

-- ── Failure blocks: what each check appends to `results.errors` ─────────────

/-- The per-file frontmatter failure, if any (crashing files excluded; they
never produce a failure, they abort the run). -/
def md_file_failure : String × Option PyValue → Option (String × String)
  | (p, none) => some ("frontmatter", md_malformed_message p)
  | (p, some (.vDict kvs)) =>
    if (md_missing kvs).isEmpty then none else some ("frontmatter", md_missing_message p kvs)
  | (_, some _) => none

def mdFailuresOf (mds : List (String × Option PyValue)) : List (String × String) :=
  mds.filterMap md_file_failure

def mdBlockOf (mds : List (String × Option PyValue)) : List (String × String) :=
  mdFailuresOf mds ++
    (if (mdFailuresOf mds).isEmpty then [] else
      [("frontmatter", md_summary_fail (mdFailuresOf mds).length mds.length)])

def yml_file_failure : String × Option (List PyValue) → Option (String × String)
  | (p, none) => some ("yml-schema", yml_parse_fail_message p)
  | (p, some entries) =>
    if (yml_entry_errors entries).isEmpty then none
    else some ("yml-schema", yml_schema_message p entries)

def ymlFailuresOf (ymls : List (String × Option (List PyValue))) :
    List (String × String) :=
  ymls.filterMap yml_file_failure

def ymlBlockOf (ymls : List (String × Option (List PyValue))) : List (String × String) :=
  ymlFailuresOf ymls ++
    (if (ymlFailuresOf ymls).isEmpty then [] else
      [("yml-schema", yml_summary_fail (ymlFailuresOf ymls).length ymls.length)])

def dupBlockOf (mdValid : List (String × PyDict))
    (ymlValid : List (String × List PyValue)) : List (String × String) :=
  (duplicates_of (id_locations mdValid ymlValid)).map
    (fun kl => ("duplicate-id", dup_id_message kl.1 kl.2))

def relFileMsgs (p : String) (entries : List PyValue) (ids : List String) :
    List String :=
  entries.flatMap (fun e => (entry_ref_failures p e ids).getD [])

def relMsgsOf (ymlValid : List (String × List PyValue)) (ids : List String) :
    List String :=
  ymlValid.flatMap (fun pe => relFileMsgs pe.1 pe.2 ids)

def relBlockOf (ymlValid : List (String × List PyValue)) (ids : List String) :
    List (String × String) :=
  (relMsgsOf ymlValid ids).map (fun m => ("related-errors", m)) ++
    (if (relMsgsOf ymlValid ids).isEmpty then [] else
      [("related-errors", related_summary_fail (relMsgsOf ymlValid ids).length)])

/-- Whether `check_severity_values` fails an entry (crashes excluded). -/
def sevBad (e : PyValue) : Bool :=
  match pyInStrSet (entryGetD e "severity" (.vStr "")) VALID_SEVERITIES with
  | some false => true
  | _ => false

def sevMsgsOf (ymlValid : List (String × List PyValue)) : List String :=
  ymlValid.flatMap (fun pe =>
    pe.2.filterMap (fun e => if sevBad e then some (severity_message pe.1 e) else none))

def sevBlockOf (ymlValid : List (String × List PyValue)) : List (String × String) :=
  (sevMsgsOf ymlValid).map (fun m => ("severity", m)) ++
    (if (sevMsgsOf ymlValid).isEmpty then [] else
      [("severity", severity_summary_fail (sevMsgsOf ymlValid).length)])

def catMsgsOf (mdValid : List (String × PyDict)) : List String :=
  mdValid.filterMap (fun pk =>
    if VALID_CATEGORIES.contains (categoryOf pk.2) then none
    else some (category_message pk.1 pk.2))

def catBlockOf (mdValid : List (String × PyDict)) : List (String × String) :=
  (catMsgsOf mdValid).map (fun m => ("category", m)) ++
    (if (catMsgsOf mdValid).isEmpty then [] else
      [("category", category_summary_fail (catMsgsOf mdValid).length)])

def langMsgsOf (mdValid : List (String × PyDict)) : List String :=
  mdValid.filterMap (fun pk =>
    if VALID_LANGUAGES.contains (languageOf pk.2) then none
    else some (language_message pk.1 pk.2))

def langBlockOf (mdValid : List (String × PyDict)) : List (String × String) :=
  (langMsgsOf mdValid).map (fun m => ("language", m)) ++
    (if (langMsgsOf mdValid).isEmpty then [] else
      [("language", language_summary_fail (langMsgsOf mdValid).length)])

def semMsgsOf (mdValid : List (String × PyDict)) : List String :=
  mdValid.filterMap (fun pk =>
    if isSemver (versionOf pk.2) then none else some (semver_message pk.1 pk.2))

def semBlockOf (mdValid : List (String × PyDict)) : List (String × String) :=
  (semMsgsOf mdValid).map (fun m => ("semver", m)) ++
    (if (semMsgsOf mdValid).isEmpty then [] else
      [("semver", semver_summary_fail (semMsgsOf mdValid).length)])

/-- The full pass-message list of a completed run, check by check. -/
def passBlocksOf (pr : ParsedRegistry) : List (String × String) :=
  (if (mdFailuresOf pr.mds).isEmpty then
    [("frontmatter", md_summary_pass pr.mds.length)] else []) ++
  (if (ymlFailuresOf pr.ymls).isEmpty then
    [("yml-schema", yml_summary_pass pr.ymls.length (ymlTotalOf pr.ymls))] else []) ++
  (if (duplicates_of (id_locations (mdValidOf pr.mds) (ymlValidOf pr.ymls))).isEmpty then
    [("duplicate-id",
      dup_summary_pass (id_locations (mdValidOf pr.mds) (ymlValidOf pr.ymls)).length)]
   else []) ++
  (if (relMsgsOf (ymlValidOf pr.ymls) (allIdsOf pr)).isEmpty then
    [("related-errors", related_summary_pass)] else []) ++
  (if (sevMsgsOf (ymlValidOf pr.ymls)).isEmpty then
    [("severity", severity_summary_pass)] else []) ++
  (if (catMsgsOf (mdValidOf pr.mds)).isEmpty then
    [("category", category_summary_pass)] else []) ++
  (if (langMsgsOf (mdValidOf pr.mds)).isEmpty then
    [("language", language_summary_pass)] else []) ++
  (if (semMsgsOf (mdValidOf pr.mds)).isEmpty then
    [("semver", semver_summary_pass)] else [])

/-- The full failure list of a completed run, check by check. -/
def errorBlocksOf (pr : ParsedRegistry) : List (String × String) :=
  mdBlockOf pr.mds ++ ymlBlockOf pr.ymls ++
    dupBlockOf (mdValidOf pr.mds) (ymlValidOf pr.ymls) ++
    relBlockOf (ymlValidOf pr.ymls) (allIdsOf pr) ++
    sevBlockOf (ymlValidOf pr.ymls) ++
    catBlockOf (mdValidOf pr.mds) ++
    langBlockOf (mdValidOf pr.mds) ++
    semBlockOf (mdValidOf pr.mds)

-- ── The id map as a fold over its contributed (key, location) pairs ─────────

def mdPairs (mdValid : List (String × PyDict)) : List (String × String) :=
  mdValid.flatMap (fun pk =>
    if strippedId pk.2 == "" then [] else [(strippedId pk.2, pk.1 ++ " (frontmatter)")])

def ymlFilePairs (p : String) (entries : List PyValue) : List (String × String) :=
  entries.flatMap (fun e =>
    if strippedIdE e == "" then [] else [(strippedIdE e, p)])

def ymlPairs (ymlValid : List (String × List PyValue)) : List (String × String) :=
  ymlValid.flatMap (fun pe => ymlFilePairs pe.1 pe.2)

/-- The locations contributed for key `k`, in contribution order. -/
def pairsLocs (pairs : List (String × String)) (k : String) : List String :=
  (pairs.filter (fun kl => kl.1 == k)).map (·.2)

def gatherPairs (mdValid : List (String × PyDict))
    (ymlValid : List (String × List PyValue)) : List (String × String) :=
  mdPairs mdValid ++ ymlPairs ymlValid

def buildMap (pairs : List (String × String)) : List (String × List String) :=
  pairs.foldl (fun m kl => id_loc_add m kl.1 kl.2) []

def mapKeys (m : List (String × List String)) : List String := m.map (·.1)

def lookupMap (m : List (String × List String)) (k : String) : Option (List String) :=
  match m with
  | [] => none
  | (k', locs) :: rest => if k' == k then some locs else lookupMap rest k

/-- All identifiers contributed to the id map, with multiplicity. -/
def gatherIds (pr : ParsedRegistry) : List String :=
  (gatherPairs (mdValidOf pr.mds) (ymlValidOf pr.ymls)).map (·.1)

def nodupStr : List String → Bool
  | [] => true
  | x :: xs => !xs.contains x && nodupStr xs

-- ── Cleanliness: the hypotheses of the all-green run ────────────────────────

def mdFileClean : String × Option PyValue → Bool
  | (_, some (.vDict kvs)) =>
    (md_missing kvs).isEmpty && VALID_CATEGORIES.contains (categoryOf kvs) &&
      VALID_LANGUAGES.contains (languageOf kvs) && isSemver (versionOf kvs)
  | _ => false

def ymlEntryClean (ids : List String) (e : PyValue) : Bool :=
  match e with
  | .vDict kvs =>
    (yml_missing kvs).isEmpty &&
    (match dictGet kvs "severity" with
     | some (.vStr s) => VALID_SEVERITIES.contains s
     | _ => false) &&
    (match dictGet kvs "related_errors" with
     | none => true
     | some .vNone => true
     | some (.vList refs) => refs.all (fun r => ids.contains (pyStr r))
     | some _ => false)
  | _ => false

def ymlFileClean (ids : List String) : String × Option (List PyValue) → Bool
  | (_, some entries) => entries.all (ymlEntryClean ids)
  | (_, none) => false

/-- A registry with zero malformed files, zero missing-field records, zero
duplicate identifiers, zero broken references, and all enumerated fields
valid (the record shapes are the well-typed ones the file formats produce). -/
def cleanParsed (pr : ParsedRegistry) : Bool :=
  pr.mds.all mdFileClean &&
  pr.ymls.all (ymlFileClean (gatherIds pr)) &&
  nodupStr (gatherIds pr)

-- ── Concrete registries used by the closed statements below ─────────────────

def fmClean : PyDict :=
  [("id", .vStr "P1"), ("title", .vStr "T"), ("category", .vStr "pattern"),
   ("language", .vStr "all"), ("version", .vStr "1.0.0"),
   ("created_at", .vStr "2024-01-01")]

def entClean : PyValue :=
  .vDict [("id", .vStr "E1"), ("error_type", .vStr "t"),
    ("severity", .vStr "critical"), ("pattern", .vStr "p"),
    ("fix_template", .vStr "f"), ("tags", .vList []),
    ("related_errors", .vList [.vStr "P1"])]

def prCleanW : ParsedRegistry :=
  ⟨[("patterns/a.md", some (.vDict fmClean))], [("errors/python/e.yml", some [entClean])]⟩

def prEmptyW : ParsedRegistry := ⟨[], []⟩

/-- Models `yaml.safe_load` on the one text the crashing registries feed it:
the frontmatter body of `"---\nhi\n---\n"` is the scalar `hi`. -/
def yamlLoadC1 : String → Option PyValue :=
  fun s => if s == "\nhi" then some (.vStr "hi") else none

def regC1cex : Registry := ⟨[⟨"docs/a.md", "---\nhi\n---\n"⟩], []⟩

def yamlLoadC7 : String → Option PyValue :=
  fun s => if s == "\nhi" then some (.vStr "hi") else none

def regC7bug : Registry := ⟨[⟨"docs/scalar.md", "---\nhi\n---\n"⟩], []⟩

/-- Two schema-valid doc records both carrying the identifier `""`. -/
def fmBlankId : PyDict :=
  [("id", .vStr ""), ("title", .vStr "T"), ("category", .vStr "pattern"),
   ("language", .vStr "all"), ("version", .vStr "1.0.0"), ("created_at", .vStr "2024")]

def prC3cex : ParsedRegistry :=
  ⟨[("patterns/a.md", some (.vDict fmBlankId)), ("patterns/b.md", some (.vDict fmBlankId))], []⟩

def fmIdX : PyDict :=
  [("id", .vStr "X"), ("title", .vStr "T"), ("category", .vStr "pattern"),
   ("language", .vStr "all"), ("version", .vStr "1.0.0"), ("created_at", .vStr "2024")]

def entIdX : PyValue :=
  .vDict [("id", .vStr "X"), ("error_type", .vStr "t"),
    ("severity", .vStr "critical"), ("pattern", .vStr "p"),
    ("fix_template", .vStr "f"), ("tags", .vList [])]

/-- A doc record and an error entry sharing the identifier `X`. -/
def prC3w : ParsedRegistry :=
  ⟨[("patterns/a.md", some (.vDict fmIdX))], [("errors/e.yml", some [entIdX])]⟩

/-- An entry with a broken reference `ZZZ` but a missing required field `tags`. -/
def entC4cex : PyValue :=
  .vDict [("id", .vStr "E1"), ("error_type", .vStr "t"),
    ("severity", .vStr "critical"), ("pattern", .vStr "p"),
    ("fix_template", .vStr "f"), ("related_errors", .vList [.vStr "ZZZ"])]

def prC4cex : ParsedRegistry := ⟨[], [("errors/e.yml", some [entC4cex])]⟩

/-- A schema-valid entry referencing the absent identifier `E2`. -/
def entC4w : PyValue :=
  .vDict [("id", .vStr "E1"), ("error_type", .vStr "t"),
    ("severity", .vStr "critical"), ("pattern", .vStr "p"),
    ("fix_template", .vStr "f"), ("tags", .vList []),
    ("related_errors", .vList [.vStr "E2"])]

def prC4w : ParsedRegistry := ⟨[], [("errors/e.yml", some [entC4w])]⟩

/-- A schema-complete entry with an invalid severity, sharing its file with a
schema-incomplete entry. -/
def entC5good : PyValue :=
  .vDict [("id", .vStr "A"), ("error_type", .vStr "t"),
    ("severity", .vStr "bogus"), ("pattern", .vStr "p"),
    ("fix_template", .vStr "f"), ("tags", .vList [])]

def entC5bad : PyValue := .vDict [("id", .vStr "B")]

def prC5cex : ParsedRegistry := ⟨[], [("errors/mixed.yml", some [entC5good, entC5bad])]⟩

/-- A schema-valid entry with both an invalid severity and an invalid version. -/
def entC6cex : PyValue :=
  .vDict [("id", .vStr "E1"), ("error_type", .vStr "t"),
    ("severity", .vStr "bogus"), ("pattern", .vStr "p"),
    ("fix_template", .vStr "f"), ("tags", .vList []),
    ("version", .vStr "zzz")]

def prC6cex : ParsedRegistry := ⟨[], [("errors/e.yml", some [entC6cex])]⟩

/-- A doc record with invalid category, language and version all at once. -/
def fmC6w : PyDict :=
  [("id", .vStr "D1"), ("title", .vStr "T"), ("category", .vStr "nope"),
   ("language", .vStr "cobol"), ("version", .vStr "1.2"), ("created_at", .vStr "2024")]

def entC6w : PyValue :=
  .vDict [("id", .vStr "E1"), ("error_type", .vStr "t"),
    ("severity", .vStr "mild"), ("pattern", .vStr "p"),
    ("fix_template", .vStr "f"), ("tags", .vList [])]

def prC6w : ParsedRegistry :=
  ⟨[("docs/d.md", some (.vDict fmC6w))], [("errors/e.yml", some [entC6w])]⟩

def yamlLoadNone : String → Option PyValue := fun _ => none

def regEmptyFiles : Registry := ⟨[], []⟩

/-- An entry whose `related_errors` holds an explicit `None`. -/
def entC10none : PyValue :=
  .vDict [("id", .vStr "E1"), ("error_type", .vStr "t"),
    ("severity", .vStr "critical"), ("pattern", .vStr "p"),
    ("fix_template", .vStr "f"), ("tags", .vList []),
    ("related_errors", .vNone)]

/-- An entry with no `related_errors` key at all. -/
def entC10absent : PyValue :=
  .vDict [("id", .vStr "E2"), ("error_type", .vStr "t"),
    ("severity", .vStr "critical"), ("pattern", .vStr "p"),
    ("fix_template", .vStr "f"), ("tags", .vList [])]

-- ── Dropping blank-id records (for the identifier-map statements) ───────────

/-- Whether a doc record contributes a key to the id map. -/
def mdNonBlank (pk : String × PyDict) : Bool := strippedId pk.2 != ""

def ymlEntryNonBlank (e : PyValue) : Bool := strippedIdE e != ""

def mdDropBlank (mdValid : List (String × PyDict)) : List (String × PyDict) :=
  mdValid.filter mdNonBlank

def ymlDropBlank (ymlValid : List (String × List PyValue)) :
    List (String × List PyValue) :=
  ymlValid.map (fun pe => (pe.1, pe.2.filter ymlEntryNonBlank))

/-- A doc record whose id renders and strips to the empty string (here: a
whitespace-only id), plus two more such records, next to one real id. -/
def fmWsId : PyDict := [("id", .vStr "   ")]

def mdVC9 : List (String × PyDict) :=
  [("patterns/a.md", fmWsId), ("patterns/b.md", fmBlankId), ("patterns/c.md", fmIdX)]

def entNoId : PyValue := .vDict [("error_type", .vStr "t")]

def ymlVC9 : List (String × List PyValue) :=
  [("errors/e.yml", [entNoId, entIdX])]

-- ════════════════════════════════════════════════════════════════════════════
-- Theorems
-- ════════════════════════════════════════════════════════════════════════════

@[simp] theorem fail_errors (r : CheckResult) (c m : String) :
    (r.fail c m).errors = r.errors ++ [(c, m)] := rfl

@[simp] theorem fail_passes (r : CheckResult) (c m : String) :
    (r.fail c m).passes = r.passes := rfl

@[simp] theorem pass_errors (r : CheckResult) (c m : String) :
    (r.pass c m).errors = r.errors := rfl

@[simp] theorem pass_passes (r : CheckResult) (c m : String) :
    (r.pass c m).passes = r.passes ++ [(c, m)] := rfl

theorem passed_iff (res : CheckResult) : res.passed = true ↔ res.errors = [] := by
  simp [CheckResult.passed, List.length_eq_zero]

theorem render_report_code (n m : Nat) (res : CheckResult) :
    (render_report n m res).2 = if res.errors = [] then 0 else 1 := by
  rw [render_report]
  by_cases h : res.errors = []
  · simp [(passed_iff res).mpr h, h]
  · have : res.passed = false := by
      cases hp : res.passed with
      | true => exact absurd ((passed_iff res).mp hp) h
      | false => rfl
    simp [this, h]

theorem check_md_frontmatter_go_ok (mds : List (String × Option PyValue)) :
    ∀ res valid n res' valid' n',
      check_md_frontmatter_go mds res valid n = .ok (res', valid', n') →
      res'.errors = res.errors ++ mdFailuresOf mds ∧
      res'.passes = res.passes ∧
      valid' = valid ++ mdValidOf mds ∧
      n' = n + (mdFailuresOf mds).length := by
  induction mds with
  | nil =>
    intro res valid n res' valid' n' h
    simp [check_md_frontmatter_go] at h
    simp [h.1, h.2.1, h.2.2, mdFailuresOf, mdValidOf]
  | cons head rest ih =>
    obtain ⟨p, fm?⟩ := head
    intro res valid n res' valid' n' h
    match fm? with
    | none =>
      rw [check_md_frontmatter_go] at h
      obtain ⟨h1, h2, h3, h4⟩ := ih _ _ _ _ _ _ h
      refine ⟨?_, by simpa using h2, ?_, ?_⟩
      · simp [h1, mdFailuresOf, List.filterMap_cons, md_file_failure]
      · simp [h3, mdValidOf, List.filterMap_cons]
      · simp [h4, mdFailuresOf, List.filterMap_cons, md_file_failure]
        omega
    | some (.vDict kvs) =>
      rw [check_md_frontmatter_go] at h
      by_cases hm : md_missing kvs = []
      · rw [if_pos (by simp [hm])] at h
        obtain ⟨h1, h2, h3, h4⟩ := ih _ _ _ _ _ _ h
        refine ⟨?_, h2, ?_, ?_⟩
        · simp [h1, mdFailuresOf, List.filterMap_cons, md_file_failure, hm]
        · simp [h3, mdValidOf, List.filterMap_cons, hm]
        · simp [h4, mdFailuresOf, List.filterMap_cons, md_file_failure, hm]
      · rw [if_neg (by simp [List.isEmpty_iff, hm])] at h
        obtain ⟨h1, h2, h3, h4⟩ := ih _ _ _ _ _ _ h
        refine ⟨?_, by simpa using h2, ?_, ?_⟩
        · simp [h1, mdFailuresOf, List.filterMap_cons, md_file_failure, hm]
        · simp [h3, mdValidOf, List.filterMap_cons, hm]
        · simp [h4, mdFailuresOf, List.filterMap_cons, md_file_failure, hm]
          omega
    | some .vNone => simp [check_md_frontmatter_go] at h
    | some (.vBool b) => simp [check_md_frontmatter_go] at h
    | some (.vInt i) => simp [check_md_frontmatter_go] at h
    | some (.vStr s) => simp [check_md_frontmatter_go] at h
    | some (.vList xs) => simp [check_md_frontmatter_go] at h

theorem check_md_frontmatter_ok (mds : List (String × Option PyValue))
    (res res' : CheckResult) (valid : List (String × PyDict))
    (h : check_md_frontmatter mds res = .ok (res', valid)) :
    valid = mdValidOf mds ∧
    res'.errors = res.errors ++ mdBlockOf mds ∧
    res'.passes = res.passes ++
      (if (mdFailuresOf mds).isEmpty then [("frontmatter", md_summary_pass mds.length)]
       else []) := by
  rw [check_md_frontmatter] at h
  rcases hgo : check_md_frontmatter_go mds res [] 0 with e | ⟨res0, valid0, n0⟩ <;>
    rw [hgo] at h
  · cases h
  · dsimp only at h
    obtain ⟨h1, h2, h3, h4⟩ := check_md_frontmatter_go_ok mds _ _ _ _ _ _ hgo
    by_cases hF : mdFailuresOf mds = []
    · have hn : n0 = 0 := by simp [h4, hF]
      rw [if_pos (by simp [hn])] at h
      obtain ⟨hr, hv⟩ := Prod.mk.injEq .. ▸ (Except.ok.inj h)
      subst hr hv
      refine ⟨by simp [h3], ?_, ?_⟩
      · simp [h1, mdBlockOf, hF]
      · simp [h2, hF]
    · have hn : ¬(n0 == 0) = true := by
        simp [h4]
        exact hF
      rw [if_neg hn] at h
      obtain ⟨hr, hv⟩ := Prod.mk.injEq .. ▸ (Except.ok.inj h)
      subst hr hv
      refine ⟨by simp [h3], ?_, ?_⟩
      · simp [h1, h2, h4, mdBlockOf, hF, List.isEmpty_iff]
      · simp [h2, hF, List.isEmpty_iff]

theorem check_yml_entries_go_eq (ymls : List (String × Option (List PyValue))) :
    ∀ (res : CheckResult) (valid : List (String × List PyValue)) (n t : Nat),
      check_yml_entries_go ymls res valid n t =
        (⟨res.errors ++ ymlFailuresOf ymls, res.passes⟩, valid ++ ymlValidOf ymls,
          n + (ymlFailuresOf ymls).length, t + ymlTotalOf ymls) := by
  induction ymls with
  | nil =>
    intro res valid n t
    simp [check_yml_entries_go, ymlFailuresOf, ymlValidOf, ymlTotalOf]
  | cons head rest ih =>
    obtain ⟨p, entries?⟩ := head
    intro res valid n t
    match entries? with
    | none =>
      rw [check_yml_entries_go, ih]
      simp [ymlFailuresOf, ymlValidOf, ymlTotalOf, List.filterMap_cons, yml_file_failure,
        CheckResult.fail]
      omega
    | some entries =>
      rw [check_yml_entries_go]
      by_cases he : yml_entry_errors entries = []
      · rw [if_pos (by simp [he]), ih]
        simp [ymlFailuresOf, ymlValidOf, ymlTotalOf, List.filterMap_cons, yml_file_failure, he]
        omega
      · rw [if_neg (by simp [List.isEmpty_iff, he]), ih]
        simp [ymlFailuresOf, ymlValidOf, ymlTotalOf, List.filterMap_cons, yml_file_failure, he,
          CheckResult.fail]
        omega

theorem check_yml_entries_eq (ymls : List (String × Option (List PyValue)))
    (res : CheckResult) :
    check_yml_entries ymls res =
      (⟨res.errors ++ ymlBlockOf ymls,
        res.passes ++
          (if (ymlFailuresOf ymls).isEmpty then
            [("yml-schema", yml_summary_pass ymls.length (ymlTotalOf ymls))] else [])⟩,
        ymlValidOf ymls) := by
  rw [check_yml_entries, check_yml_entries_go_eq]
  by_cases hF : ymlFailuresOf ymls = []
  · rw [if_pos (by simp [hF])]
    simp [CheckResult.pass, ymlBlockOf, hF]
  · rw [if_neg (by simp [hF, List.length_eq_zero])]
    simp [CheckResult.fail, ymlBlockOf, hF, List.isEmpty_iff]

theorem add_dup_failures_eq (dups : List (String × List String)) :
    ∀ res : CheckResult,
      add_dup_failures dups res =
        ⟨res.errors ++ dups.map (fun kl => ("duplicate-id", dup_id_message kl.1 kl.2)),
          res.passes⟩ := by
  induction dups with
  | nil => intro res; simp [add_dup_failures]
  | cons head rest ih =>
    intro res
    simp only [add_dup_failures] at ih ⊢
    rw [List.foldl_cons, ih]
    simp [CheckResult.fail]

theorem check_no_duplicate_ids_eq (mdValid : List (String × PyDict))
    (ymlValid : List (String × List PyValue)) (res : CheckResult) :
    check_no_duplicate_ids mdValid ymlValid res =
      (⟨res.errors ++ dupBlockOf mdValid ymlValid,
        res.passes ++
          (if (duplicates_of (id_locations mdValid ymlValid)).isEmpty then
            [("duplicate-id", dup_summary_pass (id_locations mdValid ymlValid).length)]
          else [])⟩,
        (id_locations mdValid ymlValid).map (·.1)) := by
  rw [check_no_duplicate_ids]
  by_cases hd : duplicates_of (id_locations mdValid ymlValid) = []
  · simp [hd, CheckResult.pass, dupBlockOf]
  · rw [if_neg (by simp [List.isEmpty_iff, hd])]
    rw [add_dup_failures_eq]
    simp [hd, dupBlockOf, List.isEmpty_iff]

theorem fold_fail_eq (c : String) (msgs : List String) :
    ∀ res : CheckResult,
      msgs.foldl (fun r m => r.fail c m) res =
        ⟨res.errors ++ msgs.map (fun m => (c, m)), res.passes⟩ := by
  induction msgs with
  | nil => intro res; simp
  | cons m rest ih =>
    intro res
    rw [List.foldl_cons, ih]
    simp [CheckResult.fail]

theorem check_related_file_go_ok (p : String) (entries : List PyValue)
    (ids : List String) :
    ∀ (res : CheckResult) (n : Nat) (res' : CheckResult) (n' : Nat),
      check_related_file_go p entries ids res n = .ok (res', n') →
      res'.errors = res.errors ++
        (relFileMsgs p entries ids).map (fun m => ("related-errors", m)) ∧
      res'.passes = res.passes ∧
      n' = n + (relFileMsgs p entries ids).length := by
  induction entries with
  | nil =>
    intro res n res' n' h
    simp [check_related_file_go] at h
    simp [h.1, h.2, relFileMsgs]
  | cons e rest ih =>
    intro res n res' n' h
    rw [check_related_file_go] at h
    rcases hef : entry_ref_failures p e ids with _ | msgs <;> rw [hef] at h
    · cases h
    · dsimp only at h
      rw [fold_fail_eq] at h
      obtain ⟨h1, h2, h3⟩ := ih _ _ _ _ h
      refine ⟨?_, h2, ?_⟩
      · simp [h1, relFileMsgs, List.flatMap_cons, hef]
      · simp [h3, relFileMsgs, List.flatMap_cons, hef]
        omega

theorem check_related_errors_go_ok (files : List (String × List PyValue))
    (ids : List String) :
    ∀ (res : CheckResult) (n : Nat) (res' : CheckResult) (n' : Nat),
      check_related_errors_go files ids res n = .ok (res', n') →
      res'.errors = res.errors ++ (relMsgsOf files ids).map (fun m => ("related-errors", m)) ∧
      res'.passes = res.passes ∧
      n' = n + (relMsgsOf files ids).length := by
  induction files with
  | nil =>
    intro res n res' n' h
    simp [check_related_errors_go] at h
    simp [h.1, h.2, relMsgsOf]
  | cons pe rest ih =>
    obtain ⟨p, entries⟩ := pe
    intro res n res' n' h
    rw [check_related_errors_go] at h
    rcases hf : check_related_file_go p entries ids res n with e | ⟨res0, n0⟩ <;>
      rw [hf] at h
    · cases h
    · dsimp only at h
      obtain ⟨g1, g2, g3⟩ := check_related_file_go_ok p entries ids _ _ _ _ hf
      obtain ⟨h1, h2, h3⟩ := ih _ _ _ _ h
      refine ⟨?_, by rw [h2, g2], ?_⟩
      · simp [h1, g1, relMsgsOf, List.flatMap_cons]
      · simp [h3, g3, relMsgsOf, List.flatMap_cons]
        omega

theorem check_related_errors_ok (ymlValid : List (String × List PyValue))
    (ids : List String) (res res' : CheckResult)
    (h : check_related_errors ymlValid ids res = .ok res') :
    res'.errors = res.errors ++ relBlockOf ymlValid ids ∧
    res'.passes = res.passes ++
      (if (relMsgsOf ymlValid ids).isEmpty then
        [("related-errors", related_summary_pass)] else []) := by
  rw [check_related_errors] at h
  rcases hgo : check_related_errors_go ymlValid ids res 0 with e | ⟨res0, n0⟩ <;>
    rw [hgo] at h
  · cases h
  · dsimp only at h
    obtain ⟨h1, h2, h3⟩ := check_related_errors_go_ok ymlValid ids _ _ _ _ hgo
    by_cases hF : relMsgsOf ymlValid ids = []
    · rw [if_pos (by simp [h3, hF])] at h
      cases h
      refine ⟨by simp [h1, relBlockOf, hF], by simp [h2, hF]⟩
    · have hn : ¬(n0 == 0) = true := by
        simp [h3]
        exact hF
      rw [if_neg hn] at h
      cases h
      constructor
      · simp [h1, h3, relBlockOf, hF, List.isEmpty_iff]
      · simp [h2, hF, List.isEmpty_iff]

theorem check_severity_file_go_ok (p : String) (entries : List PyValue) :
    ∀ (res : CheckResult) (n : Nat) (res' : CheckResult) (n' : Nat),
      check_severity_file_go p entries res n = .ok (res', n') →
      res'.errors = res.errors ++
        (entries.filterMap (fun e =>
          if sevBad e then some (severity_message p e) else none)).map
            (fun m => ("severity", m)) ∧
      res'.passes = res.passes ∧
      n' = n + (entries.filterMap (fun e =>
        if sevBad e then some (severity_message p e) else none)).length := by
  induction entries with
  | nil =>
    intro res n res' n' h
    simp [check_severity_file_go] at h
    simp [h.1, h.2]
  | cons e rest ih =>
    intro res n res' n' h
    rw [check_severity_file_go] at h
    rcases hs : pyInStrSet (entryGetD e "severity" (.vStr "")) VALID_SEVERITIES
      with _ | b <;> rw [hs] at h
    · cases h
    · cases b with
      | true =>
        dsimp only at h
        obtain ⟨h1, h2, h3⟩ := ih _ _ _ _ h
        have hb : sevBad e = false := by simp [sevBad, hs]
        refine ⟨?_, h2, ?_⟩
        · simp [h1, List.filterMap_cons, hb]
        · simp [h3, List.filterMap_cons, hb]
      | false =>
        dsimp only at h
        obtain ⟨h1, h2, h3⟩ := ih _ _ _ _ h
        have hb : sevBad e = true := by simp [sevBad, hs]
        refine ⟨?_, by simpa using h2, ?_⟩
        · simp [h1, List.filterMap_cons, hb]
        · simp [h3, List.filterMap_cons, hb]
          omega

theorem check_severity_values_go_ok (files : List (String × List PyValue)) :
    ∀ (res : CheckResult) (n : Nat) (res' : CheckResult) (n' : Nat),
      check_severity_values_go files res n = .ok (res', n') →
      res'.errors = res.errors ++ (sevMsgsOf files).map (fun m => ("severity", m)) ∧
      res'.passes = res.passes ∧
      n' = n + (sevMsgsOf files).length := by
  induction files with
  | nil =>
    intro res n res' n' h
    simp [check_severity_values_go] at h
    simp [h.1, h.2, sevMsgsOf]
  | cons pe rest ih =>
    obtain ⟨p, entries⟩ := pe
    intro res n res' n' h
    rw [check_severity_values_go] at h
    rcases hf : check_severity_file_go p entries res n with e | ⟨res0, n0⟩ <;>
      rw [hf] at h
    · cases h
    · dsimp only at h
      obtain ⟨g1, g2, g3⟩ := check_severity_file_go_ok p entries _ _ _ _ hf
      obtain ⟨h1, h2, h3⟩ := ih _ _ _ _ h
      refine ⟨?_, by rw [h2, g2], ?_⟩
      · simp [h1, g1, sevMsgsOf, List.flatMap_cons]
      · simp [h3, g3, sevMsgsOf, List.flatMap_cons]
        omega

theorem check_severity_values_ok (ymlValid : List (String × List PyValue))
    (res res' : CheckResult) (h : check_severity_values ymlValid res = .ok res') :
    res'.errors = res.errors ++ sevBlockOf ymlValid ∧
    res'.passes = res.passes ++
      (if (sevMsgsOf ymlValid).isEmpty then [("severity", severity_summary_pass)]
       else []) := by
  rw [check_severity_values] at h
  rcases hgo : check_severity_values_go ymlValid res 0 with e | ⟨res0, n0⟩ <;>
    rw [hgo] at h
  · cases h
  · dsimp only at h
    obtain ⟨h1, h2, h3⟩ := check_severity_values_go_ok ymlValid _ _ _ _ hgo
    by_cases hF : sevMsgsOf ymlValid = []
    · rw [if_pos (by simp [h3, hF])] at h
      cases h
      refine ⟨by simp [h1, sevBlockOf, hF], by simp [h2, hF]⟩
    · have hn : ¬(n0 == 0) = true := by
        simp [h3]
        exact hF
      rw [if_neg hn] at h
      cases h
      constructor
      · simp [h1, h3, sevBlockOf, hF, List.isEmpty_iff]
      · simp [h2, hF, List.isEmpty_iff]

theorem check_category_go_eq (mdValid : List (String × PyDict)) :
    ∀ (res : CheckResult) (n : Nat),
      check_category_go mdValid res n =
        (⟨res.errors ++ (catMsgsOf mdValid).map (fun m => ("category", m)), res.passes⟩,
          n + (catMsgsOf mdValid).length) := by
  induction mdValid with
  | nil => intro res n; simp [check_category_go, catMsgsOf]
  | cons pk rest ih =>
    obtain ⟨p, kvs⟩ := pk
    intro res n
    rw [check_category_go]
    by_cases hc : VALID_CATEGORIES.contains (categoryOf kvs)
    · rw [if_pos hc, ih]
      have hc2 : categoryOf kvs ∈ VALID_CATEGORIES := by simpa using hc
      simp [catMsgsOf, List.filterMap_cons, hc2]
    · rw [if_neg hc, ih]
      have hc2 : categoryOf kvs ∉ VALID_CATEGORIES := by simpa using hc
      simp [catMsgsOf, List.filterMap_cons, hc2, CheckResult.fail]
      omega

theorem check_category_values_eq (mdValid : List (String × PyDict)) (res : CheckResult) :
    check_category_values mdValid res =
      ⟨res.errors ++ catBlockOf mdValid,
        res.passes ++
          (if (catMsgsOf mdValid).isEmpty then [("category", category_summary_pass)]
           else [])⟩ := by
  rw [check_category_values, check_category_go_eq]
  by_cases hF : catMsgsOf mdValid = []
  · rw [if_pos (by simp [hF])]
    simp [CheckResult.pass, catBlockOf, hF]
  · rw [if_neg (by simp [hF, List.length_eq_zero])]
    simp [CheckResult.fail, catBlockOf, hF, List.isEmpty_iff]

theorem check_language_go_eq (mdValid : List (String × PyDict)) :
    ∀ (res : CheckResult) (n : Nat),
      check_language_go mdValid res n =
        (⟨res.errors ++ (langMsgsOf mdValid).map (fun m => ("language", m)), res.passes⟩,
          n + (langMsgsOf mdValid).length) := by
  induction mdValid with
  | nil => intro res n; simp [check_language_go, langMsgsOf]
  | cons pk rest ih =>
    obtain ⟨p, kvs⟩ := pk
    intro res n
    rw [check_language_go]
    by_cases hc : VALID_LANGUAGES.contains (languageOf kvs)
    · rw [if_pos hc, ih]
      have hc2 : languageOf kvs ∈ VALID_LANGUAGES := by simpa using hc
      simp [langMsgsOf, List.filterMap_cons, hc2]
    · rw [if_neg hc, ih]
      have hc2 : languageOf kvs ∉ VALID_LANGUAGES := by simpa using hc
      simp [langMsgsOf, List.filterMap_cons, hc2, CheckResult.fail]
      omega

theorem check_language_values_eq (mdValid : List (String × PyDict)) (res : CheckResult) :
    check_language_values mdValid res =
      ⟨res.errors ++ langBlockOf mdValid,
        res.passes ++
          (if (langMsgsOf mdValid).isEmpty then [("language", language_summary_pass)]
           else [])⟩ := by
  rw [check_language_values, check_language_go_eq]
  by_cases hF : langMsgsOf mdValid = []
  · rw [if_pos (by simp [hF])]
    simp [CheckResult.pass, langBlockOf, hF]
  · rw [if_neg (by simp [hF, List.length_eq_zero])]
    simp [CheckResult.fail, langBlockOf, hF, List.isEmpty_iff]

theorem check_semver_go_eq (mdValid : List (String × PyDict)) :
    ∀ (res : CheckResult) (n : Nat),
      check_semver_go mdValid res n =
        (⟨res.errors ++ (semMsgsOf mdValid).map (fun m => ("semver", m)), res.passes⟩,
          n + (semMsgsOf mdValid).length) := by
  induction mdValid with
  | nil => intro res n; simp [check_semver_go, semMsgsOf]
  | cons pk rest ih =>
    obtain ⟨p, kvs⟩ := pk
    intro res n
    rw [check_semver_go]
    by_cases hc : isSemver (versionOf kvs)
    · rw [if_pos hc, ih]
      simp [semMsgsOf, List.filterMap_cons, hc]
    · rw [if_neg hc, ih]
      simp [semMsgsOf, List.filterMap_cons, hc, CheckResult.fail]
      omega

theorem check_semver_eq (mdValid : List (String × PyDict)) (res : CheckResult) :
    check_semver mdValid res =
      ⟨res.errors ++ semBlockOf mdValid,
        res.passes ++
          (if (semMsgsOf mdValid).isEmpty then [("semver", semver_summary_pass)]
           else [])⟩ := by
  rw [check_semver, check_semver_go_eq]
  by_cases hF : semMsgsOf mdValid = []
  · rw [if_pos (by simp [hF])]
    simp [CheckResult.pass, semBlockOf, hF]
  · rw [if_neg (by simp [hF, List.length_eq_zero])]
    simp [CheckResult.fail, semBlockOf, hF, List.isEmpty_iff]

/-- Structure of a completed run: the final failure list is the concatenation
of the eight checks' failure blocks, the pass list is the concatenation of
their pass messages, and the report/exit pair is rendered from them. -/
theorem runChecks_ok_decomp (pr : ParsedRegistry) (res : CheckResult)
    (rep : String) (code : Nat) (h : runChecks pr = .ok (res, rep, code)) :
    res.errors = errorBlocksOf pr ∧
    res.passes = passBlocksOf pr ∧
    (rep, code) = render_report pr.mds.length pr.ymls.length res := by
  rw [runChecks] at h
  rcases hmd : check_md_frontmatter pr.mds emptyResults with e | ⟨res1, mdValid⟩ <;>
    rw [hmd] at h
  · cases h
  · dsimp only at h
    obtain ⟨hv, he1, hp1⟩ := check_md_frontmatter_ok _ _ _ _ hmd
    rw [check_yml_entries_eq, check_no_duplicate_ids_eq] at h
    dsimp only at h
    rcases hrel : check_related_errors (ymlValidOf pr.ymls)
        ((id_locations mdValid (ymlValidOf pr.ymls)).map (·.1))
        ⟨res1.errors ++ ymlBlockOf pr.ymls ++ dupBlockOf mdValid (ymlValidOf pr.ymls),
          (res1.passes ++ _) ++ _⟩ with e | res4 <;> rw [hrel] at h
    · cases h
    · dsimp only at h
      obtain ⟨he4, hp4⟩ := check_related_errors_ok _ _ _ _ hrel
      rcases hsev : check_severity_values (ymlValidOf pr.ymls) res4 with e | res5 <;>
        rw [hsev] at h
      · cases h
      · dsimp only at h
        obtain ⟨he5, hp5⟩ := check_severity_values_ok _ _ _ hsev
        rw [check_category_values_eq, check_language_values_eq, check_semver_eq] at h
        subst hv
        cases h
        constructor
        · simp only [fail_errors, pass_errors, he5, he4, he1, emptyResults]
          simp [errorBlocksOf, allIdsOf]
        constructor
        · simp only [hp5, hp4, hp1, emptyResults]
          simp [passBlocksOf, allIdsOf]
        · rfl

theorem runChecks_ok_code (pr : ParsedRegistry) (res : CheckResult)
    (rep : String) (code : Nat) (h : runChecks pr = .ok (res, rep, code)) :
    code = if res.errors = [] then 0 else 1 := by
  obtain ⟨-, -, hrc⟩ := runChecks_ok_decomp pr res rep code h
  have := congrArg Prod.snd hrc
  rwa [render_report_code] at this

-- ── Claim C1 ────────────────────────────────────────────────────────────────

/-- C1, counterexample: the claim says the exit status of every run is 0
when the total failure count is zero. On a registry holding one `.md` file
whose frontmatter block is the YAML scalar `hi`, the run aborts with an
`AttributeError` while zero failures are accumulated, and the process exit
status is 1 (Python exits 1 on an uncaught exception), not 0. -/
theorem C1_counterexample :
    errorsOf (run_validation yamlLoadC1 regC1cex) = [] ∧
    exitOf (run_validation yamlLoadC1 regC1cex) = 1 ∧
    okOf (run_validation yamlLoadC1 regC1cex) = false := by
  refine ⟨by decide, by decide, by decide⟩

/-- C1, amended: for every run that terminates without an unhandled
exception, the exit status is 0 if the accumulated error list is empty and 1
otherwise — it is derived solely from the emptiness of that list. -/
theorem C1_exit_from_error_list (pr : ParsedRegistry)
    (h : okOf (runChecks pr) = true) :
    exitOf (runChecks pr) = if errorsOf (runChecks pr) = [] then 0 else 1 := by
  rcases hr : runChecks pr with e | ⟨res, rep, code⟩
  · rw [hr] at h
    simp [okOf] at h
  · have hc := runChecks_ok_code pr res rep code hr
    simp [exitOf, errorsOf, hr, hc]

/-- C1, witness: the empty registry completes, and its exit status is the
one computed from its (empty) error list. -/
theorem C1_witness :
    exitOf (runChecks prEmptyW) = if errorsOf (runChecks prEmptyW) = [] then 0 else 1 :=
  C1_exit_from_error_list prEmptyW rfl

-- ── Claim C7 ────────────────────────────────────────────────────────────────

/-- C7: the claim (with `parse_md_frontmatter`'s own `dict | None` annotation
and docstring) says no file content can raise an exception out of the
checking pipeline. But on a `.md` file whose frontmatter block is the YAML
scalar `hi`, `parse_md_frontmatter` returns the string itself, and
`check_md_frontmatter` then crashes on `fm.keys()` with an `AttributeError`
(`str` has no `keys`), aborting the run with no failure recorded and no
report printed. -/
theorem C7_scalar_frontmatter_crashes :
    crashOf (run_validation yamlLoadC7 regC7bug) = some Crash.attributeError ∧
    errorsOf (run_validation yamlLoadC7 regC7bug) = [] ∧
    passesOf (run_validation yamlLoadC7 regC7bug) = [] ∧
    reportOf (run_validation yamlLoadC7 regC7bug) = none := by
  refine ⟨by decide, by decide, by decide, by decide⟩

-- ── Claim C8 ────────────────────────────────────────────────────────────────

/-- C8: the checker is deterministic — the report and exit status are a
function of the loaded record set alone, so two runs over registries that
load to the same parsed records (in particular, two runs over the same
unchanged registry with the same traversal order) produce byte-identical
reports and identical exit statuses. -/
theorem C8_deterministic (y1 y2 : String → Option PyValue) (r1 r2 : Registry)
    (h : parseRegistry y1 r1 = parseRegistry y2 r2) :
    run_validation y1 r1 = run_validation y2 r2 := by
  rw [run_validation, run_validation, h]

/-- C8, witness: running twice on one concrete registry gives equal outputs. -/
theorem C8_witness :
    run_validation yamlLoadNone regEmptyFiles = run_validation yamlLoadNone regEmptyFiles :=
  C8_deterministic yamlLoadNone yamlLoadNone regEmptyFiles regEmptyFiles rfl

-- ── The id map as a fold over its pair list ─────────────────────────────────

theorem contains_iff_mem (l : List String) (a : String) :
    l.contains a = true ↔ a ∈ l := by
  induction l with
  | nil => simp
  | cons x xs ih => simp [List.contains_cons, ih]

theorem md_id_fold_eq (mdValid : List (String × PyDict)) :
    ∀ m, md_id_fold m mdValid =
      (mdPairs mdValid).foldl (fun m kl => id_loc_add m kl.1 kl.2) m := by
  induction mdValid with
  | nil => intro m; simp [md_id_fold, mdPairs]
  | cons pk rest ih =>
    obtain ⟨p, kvs⟩ := pk
    intro m
    simp only [md_id_fold, List.foldl_cons] at ih ⊢
    rw [ih]
    simp only [mdPairs, List.flatMap_cons, List.foldl_append]
    by_cases hb : strippedId kvs == ""
    · simp [md_id_step, hb, mdPairs]
    · simp [md_id_step, hb, mdPairs]

theorem yml_file_id_fold_eq (entries : List PyValue) :
    ∀ m p, yml_file_id_fold m p entries =
      (ymlFilePairs p entries).foldl (fun m kl => id_loc_add m kl.1 kl.2) m := by
  induction entries with
  | nil => intro m p; simp [yml_file_id_fold, ymlFilePairs]
  | cons e rest ih =>
    intro m p
    simp only [yml_file_id_fold, List.foldl_cons] at ih ⊢
    rw [ih]
    simp only [ymlFilePairs, List.flatMap_cons, List.foldl_append]
    by_cases hb : strippedIdE e == ""
    · simp [yml_id_step, hb, ymlFilePairs]
    · simp [yml_id_step, hb, ymlFilePairs]

theorem yml_id_fold_eq (ymlValid : List (String × List PyValue)) :
    ∀ m, yml_id_fold m ymlValid =
      (ymlPairs ymlValid).foldl (fun m kl => id_loc_add m kl.1 kl.2) m := by
  induction ymlValid with
  | nil => intro m; simp [yml_id_fold, ymlPairs]
  | cons pe rest ih =>
    obtain ⟨p, entries⟩ := pe
    intro m
    simp only [yml_id_fold, List.foldl_cons] at ih ⊢
    rw [ih]
    simp only [ymlPairs, List.flatMap_cons, List.foldl_append]
    rw [yml_file_id_fold_eq]

theorem id_locations_eq_buildMap (mdValid : List (String × PyDict))
    (ymlValid : List (String × List PyValue)) :
    id_locations mdValid ymlValid = buildMap (gatherPairs mdValid ymlValid) := by
  rw [id_locations, buildMap, gatherPairs, List.foldl_append, yml_id_fold_eq,
    md_id_fold_eq]

theorem lookup_add_self (k loc : String) :
    ∀ m, lookupMap (id_loc_add m k loc) k = some ((lookupMap m k).getD [] ++ [loc]) := by
  intro m
  induction m with
  | nil => simp [id_loc_add, lookupMap]
  | cons kl rest ih =>
    obtain ⟨k', locs⟩ := kl
    by_cases h : k' == k
    · simp [id_loc_add, lookupMap, h]
    · simp only [id_loc_add, h]
      simp only [Bool.false_eq_true, if_false]
      simp [lookupMap, h, ih]

theorem lookup_add_other (k loc k' : String) (hne : ¬(k' == k) = true) :
    ∀ m, lookupMap (id_loc_add m k loc) k' = lookupMap m k' := by
  intro m
  induction m with
  | nil =>
    simp [id_loc_add, lookupMap]
    intro h
    exact absurd (by simp [h]) hne
  | cons kl rest ih =>
    obtain ⟨k0, locs⟩ := kl
    by_cases h : k0 == k
    · have : ¬(k0 == k') = true := by
        intro hc
        exact hne (by simp at h hc ⊢; rw [← hc, h])
      simp [id_loc_add, lookupMap, h, this]
    · simp only [id_loc_add, h, Bool.false_eq_true, if_false]
      by_cases h2 : k0 == k'
      · simp [lookupMap, h2]
      · simp [lookupMap, h2, ih]

theorem mapKeys_add (k loc : String) :
    ∀ m, mapKeys (id_loc_add m k loc) =
      if (mapKeys m).contains k then mapKeys m else mapKeys m ++ [k] := by
  intro m
  induction m with
  | nil => simp [id_loc_add, mapKeys]
  | cons kl rest ih =>
    obtain ⟨k0, locs⟩ := kl
    by_cases h : k0 == k
    · have hk : k0 = k := by simpa using h
      simp [id_loc_add, mapKeys, h, hk]
    · have hk : ¬k0 = k := by simpa using h
      simp only [id_loc_add, h, Bool.false_eq_true, if_false]
      simp only [mapKeys, List.map_cons] at ih ⊢
      rw [ih]
      have hcons : ∀ l : List String, (k0 :: l).contains k = l.contains k := by
        intro l
        simp [List.contains_cons, Ne.symm hk]
      rw [hcons]
      by_cases hc : (rest.map (·.1)).contains k
      · simp only [hc, if_true]
      · simp only [hc, Bool.false_eq_true, if_false, List.cons_append]

theorem lookup_foldl (pairs : List (String × String)) :
    ∀ m k, lookupMap (pairs.foldl (fun m kl => id_loc_add m kl.1 kl.2) m) k =
      if (pairsLocs pairs k).isEmpty then lookupMap m k
      else some ((lookupMap m k).getD [] ++ pairsLocs pairs k) := by
  induction pairs with
  | nil => intro m k; simp [pairsLocs]
  | cons kl rest ih =>
    obtain ⟨k0, loc0⟩ := kl
    intro m k
    rw [List.foldl_cons, ih]
    by_cases h : k0 == k
    · have hk : k0 = k := by simpa using h
      subst hk
      rw [lookup_add_self]
      have hp : pairsLocs ((k0, loc0) :: rest) k0 = loc0 :: pairsLocs rest k0 := by
        simp [pairsLocs]
      rw [hp]
      by_cases he : pairsLocs rest k0 = []
      · simp [he]
      · have hne : (pairsLocs rest k0).isEmpty = false := by
          cases hx : pairsLocs rest k0 with
          | nil => exact absurd hx he
          | cons a as => rfl
        rw [hne]
        simp
    · have hp : pairsLocs ((k0, loc0) :: rest) k = pairsLocs rest k := by
        simp [pairsLocs, h]
      have hsym : ¬(k == k0) = true := by
        intro hc
        apply h
        simp only [beq_iff_eq] at hc ⊢
        exact hc.symm
      rw [hp, lookup_add_other k0 loc0 k hsym]

theorem lookup_buildMap (pairs : List (String × String)) (k : String) :
    lookupMap (buildMap pairs) k =
      if (pairsLocs pairs k).isEmpty then none else some (pairsLocs pairs k) := by
  rw [buildMap, lookup_foldl]
  simp [lookupMap]

theorem mapKeys_nodup_add (k loc : String) (m : List (String × List String))
    (h : (mapKeys m).Nodup) : (mapKeys (id_loc_add m k loc)).Nodup := by
  rw [mapKeys_add]
  by_cases hc : (mapKeys m).contains k
  · rw [if_pos hc]
    exact h
  · rw [if_neg hc]
    rw [List.nodup_append]
    refine ⟨h, List.nodup_singleton k, ?_⟩
    intro a ha hb
    simp only [List.mem_singleton] at hb
    subst hb
    exact absurd ((contains_iff_mem _ _).mpr ha) hc

theorem mapKeys_nodup_foldl (pairs : List (String × String)) :
    ∀ m, (mapKeys m).Nodup →
      (mapKeys (pairs.foldl (fun m kl => id_loc_add m kl.1 kl.2) m)).Nodup := by
  induction pairs with
  | nil => intro m h; simpa using h
  | cons kl rest ih =>
    intro m h
    rw [List.foldl_cons]
    exact ih _ (mapKeys_nodup_add kl.1 kl.2 m h)

theorem mapKeys_nodup_buildMap (pairs : List (String × String)) :
    (mapKeys (buildMap pairs)).Nodup := by
  rw [buildMap]
  exact mapKeys_nodup_foldl pairs [] (by simp [mapKeys])

theorem mem_iff_lookup (m : List (String × List String))
    (hnd : (mapKeys m).Nodup) (k : String) (locs : List String) :
    (k, locs) ∈ m ↔ lookupMap m k = some locs := by
  induction m with
  | nil => simp [lookupMap]
  | cons kl rest ih =>
    obtain ⟨k0, locs0⟩ := kl
    simp only [mapKeys, List.map_cons, List.nodup_cons] at hnd
    by_cases h : k0 == k
    · have hk : k0 = k := by simpa using h
      subst hk
      simp only [lookupMap, h, if_true, List.mem_cons]
      constructor
      · rintro (heq | hmem)
        · simp only [Prod.mk.injEq] at heq
          simp [heq.2]
        · exact absurd (List.mem_map_of_mem (·.1) hmem) (by simpa [mapKeys] using hnd.1)
      · intro hl
        left
        simp only [Option.some.injEq] at hl
        simp [hl]
    · have hk : ¬k0 = k := by simpa using h
      simp only [lookupMap, h, Bool.false_eq_true, if_false, List.mem_cons]
      rw [← ih (by simpa [mapKeys] using hnd.2)]
      constructor
      · rintro (heq | hmem)
        · simp only [Prod.mk.injEq] at heq
          exact absurd heq.1 (Ne.symm hk)
        · exact hmem
      · intro hmem
        right
        exact hmem

theorem mem_mapKeys_foldl (pairs : List (String × String)) :
    ∀ m k, k ∈ mapKeys (pairs.foldl (fun m kl => id_loc_add m kl.1 kl.2) m) ↔
      k ∈ mapKeys m ∨ k ∈ pairs.map (·.1) := by
  induction pairs with
  | nil => intro m k; simp
  | cons kl rest ih =>
    obtain ⟨k0, loc0⟩ := kl
    intro m k
    rw [List.foldl_cons, ih, mapKeys_add]
    by_cases hc : (mapKeys m).contains k0
    · simp only [hc, if_true, List.map_cons, List.mem_cons]
      constructor
      · rintro (h | h)
        · exact Or.inl h
        · exact Or.inr (Or.inr h)
      · rintro (h | h | h)
        · exact Or.inl h
        · subst h
          exact Or.inl ((contains_iff_mem _ _).mp hc)
        · exact Or.inr h
    · simp only [hc, Bool.false_eq_true, if_false, List.map_cons, List.mem_cons,
        List.mem_append, List.mem_singleton]
      tauto

theorem mem_mapKeys_buildMap (pairs : List (String × String)) (k : String) :
    k ∈ mapKeys (buildMap pairs) ↔ k ∈ pairs.map (·.1) := by
  rw [buildMap, mem_mapKeys_foldl]
  simp [mapKeys]

theorem id_locations_keys_nodup (mdValid : List (String × PyDict))
    (ymlValid : List (String × List PyValue)) :
    (mapKeys (id_locations mdValid ymlValid)).Nodup := by
  rw [id_locations_eq_buildMap]
  exact mapKeys_nodup_buildMap _

theorem id_locations_locs (mdValid : List (String × PyDict))
    (ymlValid : List (String × List PyValue)) (k : String) (locs : List String)
    (h : (k, locs) ∈ id_locations mdValid ymlValid) :
    locs = pairsLocs (gatherPairs mdValid ymlValid) k ∧ locs ≠ [] := by
  have hl := (mem_iff_lookup _ (id_locations_keys_nodup mdValid ymlValid) k locs).mp h
  rw [id_locations_eq_buildMap, lookup_buildMap] at hl
  by_cases he : (pairsLocs (gatherPairs mdValid ymlValid) k).isEmpty
  · rw [if_pos he] at hl
    cases hl
  · rw [if_neg he] at hl
    have := Option.some.inj hl
    subst this
    exact ⟨rfl, by simpa [List.isEmpty_iff] using he⟩

theorem pairsLocs_length (pairs : List (String × String)) (k : String) :
    (pairsLocs pairs k).length = (pairs.map (·.1)).count k := by
  induction pairs with
  | nil => simp [pairsLocs]
  | cons kl rest ih =>
    obtain ⟨k0, loc0⟩ := kl
    by_cases h : k0 == k
    · have hk : k0 = k := by simpa using h
      subst hk
      have ihl : (List.filter (fun kl => kl.1 == k0) rest).length =
          List.count k0 (List.map (fun x => x.1) rest) := by
        simpa [pairsLocs] using ih
      simp [pairsLocs, List.count_cons, ihl]
    · have hk : ¬k0 = k := by simpa using h
      simp only [pairsLocs, List.filter_cons, List.map_cons] at ih ⊢
      simp [h, List.count_cons, Ne.symm hk, ih]

theorem duplicates_empty_of_nodup (mdValid : List (String × PyDict))
    (ymlValid : List (String × List PyValue))
    (hnd : ((gatherPairs mdValid ymlValid).map (·.1)).Nodup) :
    duplicates_of (id_locations mdValid ymlValid) = [] := by
  rw [duplicates_of, List.filter_eq_nil_iff]
  rintro ⟨k, locs⟩ hmem
  obtain ⟨hlocs, -⟩ := id_locations_locs mdValid ymlValid k locs hmem
  have hcount := List.nodup_iff_count_le_one.mp hnd k
  have hlen : locs.length ≤ 1 := by
    rw [hlocs, pairsLocs_length]
    exact hcount
  simp only [decide_eq_true_eq]
  omega

theorem mdPairs_dropBlank (mdValid : List (String × PyDict)) :
    mdPairs (mdDropBlank mdValid) = mdPairs mdValid := by
  induction mdValid with
  | nil => simp [mdPairs, mdDropBlank]
  | cons pk rest ih =>
    obtain ⟨p, kvs⟩ := pk
    by_cases hb : strippedId kvs == ""
    · have : mdNonBlank (p, kvs) = false := by
        simp only [mdNonBlank]
        simpa using hb
      simp only [mdDropBlank, List.filter_cons, this, Bool.false_eq_true, if_false]
      simp only [mdDropBlank] at ih
      rw [ih]
      have hbe : strippedId kvs = "" := by simpa using hb
      simp [mdPairs, hbe]
    · have : mdNonBlank (p, kvs) = true := by
        simp only [mdNonBlank]
        simpa using hb
      simp only [mdDropBlank, List.filter_cons, this, if_true]
      simp only [mdPairs, List.flatMap_cons, hb, Bool.false_eq_true, if_false]
      simp only [mdDropBlank, mdPairs] at ih
      rw [ih]

theorem ymlFilePairs_dropBlank (p : String) (entries : List PyValue) :
    ymlFilePairs p (entries.filter ymlEntryNonBlank) = ymlFilePairs p entries := by
  induction entries with
  | nil => simp [ymlFilePairs]
  | cons e rest ih =>
    by_cases hb : strippedIdE e == ""
    · have : ymlEntryNonBlank e = false := by
        simp only [ymlEntryNonBlank]
        simpa using hb
      simp only [List.filter_cons, this, Bool.false_eq_true, if_false]
      rw [ih]
      have hbe : strippedIdE e = "" := by simpa using hb
      simp [ymlFilePairs, hbe]
    · have : ymlEntryNonBlank e = true := by
        simp only [ymlEntryNonBlank]
        simpa using hb
      simp only [List.filter_cons, this, if_true]
      simp only [ymlFilePairs, List.flatMap_cons, hb, Bool.false_eq_true, if_false]
      simp only [ymlFilePairs] at ih
      rw [ih]

theorem ymlPairs_dropBlank (ymlValid : List (String × List PyValue)) :
    ymlPairs (ymlDropBlank ymlValid) = ymlPairs ymlValid := by
  induction ymlValid with
  | nil => simp [ymlPairs, ymlDropBlank]
  | cons pe rest ih =>
    obtain ⟨p, entries⟩ := pe
    simp only [ymlDropBlank, List.map_cons, ymlPairs, List.flatMap_cons] at ih ⊢
    rw [ymlFilePairs_dropBlank, ih]

theorem id_locations_dropBlank (mdValid : List (String × PyDict))
    (ymlValid : List (String × List PyValue)) :
    id_locations (mdDropBlank mdValid) (ymlDropBlank ymlValid) =
      id_locations mdValid ymlValid := by
  rw [id_locations_eq_buildMap, id_locations_eq_buildMap, gatherPairs, gatherPairs,
    mdPairs_dropBlank, ymlPairs_dropBlank]

theorem gatherPairs_keys (mdValid : List (String × PyDict))
    (ymlValid : List (String × List PyValue)) (k : String)
    (h : k ∈ (gatherPairs mdValid ymlValid).map (·.1)) :
    k ≠ "" ∧
      ((∃ pk ∈ mdValid, strippedId pk.2 = k) ∨
        (∃ pe ∈ ymlValid, ∃ e ∈ pe.2, strippedIdE e = k)) := by
  rw [List.mem_map] at h
  obtain ⟨⟨k0, loc0⟩, hmem, hk⟩ := h
  simp only at hk
  subst hk
  rw [gatherPairs, List.mem_append] at hmem
  rcases hmem with hmd | hyml
  · rw [mdPairs, List.mem_flatMap] at hmd
    obtain ⟨pk, hpk, hin⟩ := hmd
    by_cases hb : strippedId pk.2 == ""
    · rw [if_pos hb] at hin
      cases hin
    · rw [if_neg hb] at hin
      simp only [List.mem_singleton, Prod.mk.injEq] at hin
      refine ⟨?_, Or.inl ⟨pk, hpk, hin.1.symm⟩⟩
      rw [hin.1]
      simpa using hb
  · rw [ymlPairs, List.mem_flatMap] at hyml
    obtain ⟨pe, hpe, hin⟩ := hyml
    rw [ymlFilePairs, List.mem_flatMap] at hin
    obtain ⟨e, he, hin⟩ := hin
    by_cases hb : strippedIdE e == ""
    · rw [if_pos hb] at hin
      cases hin
    · rw [if_neg hb] at hin
      simp only [List.mem_singleton, Prod.mk.injEq] at hin
      refine ⟨?_, Or.inr ⟨pe, hpe, e, he, hin.1.symm⟩⟩
      rw [hin.1]
      simpa using hb

-- ── Claim C3 ────────────────────────────────────────────────────────────────

/-- C3, counterexample: the claim promises a duplicate-ID failure and exit 1
for every registry with two records sharing an identifier. But two
schema-valid doc records both carrying the identifier `""` are never entered
into the identifier map, so the run reports nothing and exits 0. -/
theorem C3_counterexample :
    dictGet fmBlankId "id" = some (PyValue.vStr "") ∧
    errorsOf (runChecks prC3cex) = [] ∧
    exitOf (runChecks prC3cex) = 0 := by
  refine ⟨rfl, by decide, by decide⟩

/-- C3, amended: whenever the identifier map built from the schema-valid
records holds an identifier `X` (necessarily non-empty after `str()` and
stripping) with more than one location, and the run completes, the report
contains a duplicate-ID failure naming `X` together with every recorded
location — across doc records and error entries alike — and the exit status
is 1. -/
theorem C3_duplicate_reported (pr : ParsedRegistry) (X : String)
    (locs : List String) (hok : okOf (runChecks pr) = true)
    (hmem : (X, locs) ∈ id_locations (mdValidOf pr.mds) (ymlValidOf pr.ymls))
    (hlen : 1 < locs.length) :
    ("duplicate-id", dup_id_message X locs) ∈ errorsOf (runChecks pr) ∧
    exitOf (runChecks pr) = 1 := by
  rcases hr : runChecks pr with e | ⟨res, rep, code⟩
  · rw [hr] at hok
    simp [okOf] at hok
  · obtain ⟨he, -, -⟩ := runChecks_ok_decomp pr res rep code hr
    have hdup : (X, locs) ∈ duplicates_of (id_locations (mdValidOf pr.mds) (ymlValidOf pr.ymls)) := by
      rw [duplicates_of]
      exact List.mem_filter.mpr ⟨hmem, by simpa using hlen⟩
    have hblk : ("duplicate-id", dup_id_message X locs) ∈
        dupBlockOf (mdValidOf pr.mds) (ymlValidOf pr.ymls) := by
      rw [dupBlockOf]
      exact List.mem_map.mpr ⟨(X, locs), hdup, rfl⟩
    have hmemE : ("duplicate-id", dup_id_message X locs) ∈ res.errors := by
      rw [he, errorBlocksOf]
      simp only [List.mem_append]
      tauto
    refine ⟨by simpa [errorsOf, hr] using hmemE, ?_⟩
    have hc := runChecks_ok_code pr res rep code hr
    have hne : ¬res.errors = [] := List.ne_nil_of_mem hmemE
    simp [exitOf, hr, hc, hne]

/-- C3, witness: one doc record and one error entry sharing identifier `X`
produce the duplicate-ID failure naming both locations and exit 1. -/
theorem C3_witness :
    ("duplicate-id",
      dup_id_message "X" ["patterns/a.md (frontmatter)", "errors/e.yml"]) ∈
        errorsOf (runChecks prC3w) ∧
    exitOf (runChecks prC3w) = 1 :=
  C3_duplicate_reported prC3w "X" ["patterns/a.md (frontmatter)", "errors/e.yml"]
    (by decide) (by decide) (by decide)

-- ── Claim C9 ────────────────────────────────────────────────────────────────

/-- C9: records whose id is absent, or renders and strips to the empty
string, contribute no entry to the identifier map — dropping all of them
leaves the map (hence the duplicate failures and the `all_ids` set) exactly
unchanged, however many coexist — and every key of the map is the
`str()`-converted, whitespace-stripped id of some remaining record and is
non-empty (so no reference can resolve to a blank-id record). -/
theorem C9_blank_ids_excluded (mdValid : List (String × PyDict))
    (ymlValid : List (String × List PyValue)) :
    id_locations (mdDropBlank mdValid) (ymlDropBlank ymlValid) =
      id_locations mdValid ymlValid ∧
    (∀ k ∈ mapKeys (id_locations mdValid ymlValid),
      k ≠ "" ∧
        ((∃ pk ∈ mdValid, strippedId pk.2 = k) ∨
          (∃ pe ∈ ymlValid, ∃ e ∈ pe.2, strippedIdE e = k))) := by
  refine ⟨id_locations_dropBlank mdValid ymlValid, ?_⟩
  intro k hk
  apply gatherPairs_keys
  rw [id_locations_eq_buildMap] at hk
  exact (mem_mapKeys_buildMap _ k).mp hk

/-- C9, witness: on a concrete record set with three blank-id records beside
one real id `X`, dropping the blanks leaves the id map unchanged, and the
key `X` traces back to a record carrying it. -/
theorem C9_witness :
    id_locations (mdDropBlank mdVC9) (ymlDropBlank ymlVC9) =
      id_locations mdVC9 ymlVC9 ∧
    ("X" ≠ "" ∧
      ((∃ pk ∈ mdVC9, strippedId pk.2 = "X") ∨
        (∃ pe ∈ ymlVC9, ∃ e ∈ pe.2, strippedIdE e = "X"))) :=
  ⟨(C9_blank_ids_excluded mdVC9 ymlVC9).1,
    (C9_blank_ids_excluded mdVC9 ymlVC9).2 "X" (by decide)⟩

-- ── Claim C4 ────────────────────────────────────────────────────────────────

/-- C4, counterexample: the claim promises a broken-reference failure for
every error entry whose `related_errors` lists an unknown identifier. But an
entry that also misses a required field (`tags` here) is excluded with its
whole file by the schema check, so its dangling reference `ZZZ` produces no
related-errors failure at all — the run fails (exit 1) only with a
yml-schema failure. -/
theorem C4_counterexample :
    related_raw entC4cex = PyValue.vList [.vStr "ZZZ"] ∧
    (allIdsOf prC4cex).contains "ZZZ" = false ∧
    (errorsOf (runChecks prC4cex)).all (fun cm => cm.1 != "related-errors") = true ∧
    exitOf (runChecks prC4cex) = 1 := by
  refine ⟨rfl, by decide, by decide, by decide⟩

/-- C4, amended: for every error entry of a schema-valid file whose
`related_errors` iterates to a reference whose `str()` is not among the
known identifiers, a completed run reports a broken-reference failure
naming the entry's id, its file, and the missing reference, and exits 1. -/
theorem C4_broken_reference_reported (pr : ParsedRegistry) (p : String)
    (entries : List PyValue) (e : PyValue) (refs : List PyValue) (r : PyValue)
    (hok : okOf (runChecks pr) = true)
    (hfile : (p, entries) ∈ ymlValidOf pr.ymls)
    (hentry : e ∈ entries)
    (hrefs : pyIterate (related_value e) = some refs)
    (href : r ∈ refs)
    (hmiss : ¬(allIdsOf pr).contains (pyStr r) = true) :
    ("related-errors", ref_failure_message p e r) ∈ errorsOf (runChecks pr) ∧
    exitOf (runChecks pr) = 1 := by
  rcases hr : runChecks pr with err | ⟨res, rep, code⟩
  · rw [hr] at hok
    simp [okOf] at hok
  · obtain ⟨he, -, -⟩ := runChecks_ok_decomp pr res rep code hr
    have hmsg : ref_failure_message p e r ∈
        (entry_ref_failures p e (allIdsOf pr)).getD [] := by
      rw [entry_ref_failures, hrefs]
      simp only [Option.getD_some]
      exact List.mem_filterMap.mpr ⟨r, href, by rw [if_neg hmiss]⟩
    have hfm : ref_failure_message p e r ∈ relFileMsgs p entries (allIdsOf pr) := by
      rw [relFileMsgs]
      exact List.mem_flatMap.mpr ⟨e, hentry, hmsg⟩
    have hrm : ref_failure_message p e r ∈ relMsgsOf (ymlValidOf pr.ymls) (allIdsOf pr) := by
      rw [relMsgsOf]
      exact List.mem_flatMap.mpr ⟨(p, entries), hfile, hfm⟩
    have hblk : ("related-errors", ref_failure_message p e r) ∈
        relBlockOf (ymlValidOf pr.ymls) (allIdsOf pr) := by
      rw [relBlockOf]
      refine List.mem_append.mpr (Or.inl ?_)
      exact List.mem_map.mpr ⟨ref_failure_message p e r, hrm, rfl⟩
    have hmemE : ("related-errors", ref_failure_message p e r) ∈ res.errors := by
      rw [he, errorBlocksOf]
      simp only [List.mem_append]
      tauto
    refine ⟨by simpa [errorsOf, hr] using hmemE, ?_⟩
    have hc := runChecks_ok_code pr res rep code hr
    have hne : ¬res.errors = [] := List.ne_nil_of_mem hmemE
    simp [exitOf, hr, hc, hne]

/-- C4, witness: entry `E1` referencing the absent id `E2` yields the
broken-reference failure and exit 1. -/
theorem C4_witness :
    ("related-errors", ref_failure_message "errors/e.yml" entC4w (.vStr "E2")) ∈
      errorsOf (runChecks prC4w) ∧
    exitOf (runChecks prC4w) = 1 :=
  C4_broken_reference_reported prC4w "errors/e.yml" [entC4w] entC4w
    [.vStr "E2"] (.vStr "E2") (by decide)
    (show _ ∈ [("errors/e.yml", [entC4w])] from List.Mem.head _)
    (List.Mem.head _) rfl (List.Mem.head _) (by decide)

-- ── Claim C10 ───────────────────────────────────────────────────────────────

/-- C10: an entry whose `related_errors` key is absent or holds `None` is
treated as having an empty reference list — the reference check emits no
failure for it — and, conversely, an entry can only contribute
broken-reference failures when its `related_errors` value is truthy and
iterates to a non-empty collection of references. -/
theorem C10_missing_related_is_empty :
    (∀ (p : String) (e : PyValue) (ids : List String),
      (entryGet e "related_errors" = none ∨
        entryGet e "related_errors" = some PyValue.vNone) →
      entry_ref_failures p e ids = some []) ∧
    (∀ (p : String) (e : PyValue) (ids : List String) (msgs : List String),
      entry_ref_failures p e ids = some msgs → msgs ≠ [] →
      truthy (related_raw e) = true ∧
        ∃ refs, pyIterate (related_value e) = some refs ∧ refs ≠ []) := by
  constructor
  · intro p e ids h
    rcases h with h | h <;>
      simp [entry_ref_failures, related_value, related_raw, entryGetD, h, truthy, pyIterate]
  · intro p e ids msgs hef hne
    by_cases ht : truthy (related_raw e) = true
    · refine ⟨ht, ?_⟩
      rw [entry_ref_failures] at hef
      rcases hit : pyIterate (related_value e) with _ | refs <;> rw [hit] at hef
      · cases hef
      · refine ⟨refs, rfl, ?_⟩
        rintro rfl
        apply hne
        have := Option.some.inj hef
        simp at this
        exact this
    · exfalso
      apply hne
      have hv : related_value e = .vList [] := by
        rw [related_value]
        simp only [ht, Bool.false_eq_true, if_false]
      rw [entry_ref_failures, hv] at hef
      have := Option.some.inj hef
      simp [pyIterate] at this
      exact this

/-- C10, witness: an entry with `related_errors: None` and an entry with no
`related_errors` key both yield no broken-reference failure. -/
theorem C10_witness :
    entry_ref_failures "errors/e.yml" entC10none ["E1"] = some [] ∧
    entry_ref_failures "errors/e.yml" entC10absent ["E1"] = some [] :=
  ⟨C10_missing_related_is_empty.1 "errors/e.yml" entC10none ["E1"] (Or.inr rfl),
    C10_missing_related_is_empty.1 "errors/e.yml" entC10absent ["E1"] (Or.inl rfl)⟩

-- ── Which check tags which failure ──────────────────────────────────────────

theorem mdBlock_tag (mds : List (String × Option PyValue)) :
    ∀ cm ∈ mdBlockOf mds, cm.1 = "frontmatter" := by
  intro cm hcm
  rw [mdBlockOf] at hcm
  rcases List.mem_append.mp hcm with h | h
  · obtain ⟨⟨p, fm?⟩, -, hf⟩ := List.mem_filterMap.mp h
    match fm? with
    | none => cases hf; rfl
    | some (.vDict kvs) =>
      rw [md_file_failure] at hf
      by_cases hm : (md_missing kvs).isEmpty
      · rw [if_pos hm] at hf
        cases hf
      · rw [if_neg hm] at hf
        cases hf
        rfl
    | some .vNone => cases hf
    | some (.vBool b) => cases hf
    | some (.vInt i) => cases hf
    | some (.vStr s) => cases hf
    | some (.vList xs) => cases hf
  · by_cases he : (mdFailuresOf mds).isEmpty <;> simp [he] at h <;> simp [h]

theorem ymlBlock_tag (ymls : List (String × Option (List PyValue))) :
    ∀ cm ∈ ymlBlockOf ymls, cm.1 = "yml-schema" := by
  intro cm hcm
  rw [ymlBlockOf] at hcm
  rcases List.mem_append.mp hcm with h | h
  · obtain ⟨⟨p, es?⟩, -, hf⟩ := List.mem_filterMap.mp h
    match es? with
    | none => cases hf; rfl
    | some es =>
      rw [yml_file_failure] at hf
      by_cases hm : (yml_entry_errors es).isEmpty
      · rw [if_pos hm] at hf
        cases hf
      · rw [if_neg hm] at hf
        cases hf
        rfl
  · by_cases he : (ymlFailuresOf ymls).isEmpty <;> simp [he] at h <;> simp [h]

theorem dupBlock_tag (mdValid : List (String × PyDict))
    (ymlValid : List (String × List PyValue)) :
    ∀ cm ∈ dupBlockOf mdValid ymlValid, cm.1 = "duplicate-id" := by
  intro cm hcm
  rw [dupBlockOf] at hcm
  obtain ⟨kl, -, hf⟩ := List.mem_map.mp hcm
  cases hf
  rfl

theorem relBlock_tag (ymlValid : List (String × List PyValue)) (ids : List String) :
    ∀ cm ∈ relBlockOf ymlValid ids, cm.1 = "related-errors" := by
  intro cm hcm
  rw [relBlockOf] at hcm
  rcases List.mem_append.mp hcm with h | h
  · obtain ⟨m, -, hf⟩ := List.mem_map.mp h
    cases hf
    rfl
  · by_cases he : (relMsgsOf ymlValid ids).isEmpty <;> simp [he] at h <;> simp [h]

theorem sevBlock_tag (ymlValid : List (String × List PyValue)) :
    ∀ cm ∈ sevBlockOf ymlValid, cm.1 = "severity" := by
  intro cm hcm
  rw [sevBlockOf] at hcm
  rcases List.mem_append.mp hcm with h | h
  · obtain ⟨m, -, hf⟩ := List.mem_map.mp h
    cases hf
    rfl
  · by_cases he : (sevMsgsOf ymlValid).isEmpty <;> simp [he] at h <;> simp [h]

theorem catBlock_tag (mdValid : List (String × PyDict)) :
    ∀ cm ∈ catBlockOf mdValid, cm.1 = "category" := by
  intro cm hcm
  rw [catBlockOf] at hcm
  rcases List.mem_append.mp hcm with h | h
  · obtain ⟨m, -, hf⟩ := List.mem_map.mp h
    cases hf
    rfl
  · by_cases he : (catMsgsOf mdValid).isEmpty <;> simp [he] at h <;> simp [h]

theorem langBlock_tag (mdValid : List (String × PyDict)) :
    ∀ cm ∈ langBlockOf mdValid, cm.1 = "language" := by
  intro cm hcm
  rw [langBlockOf] at hcm
  rcases List.mem_append.mp hcm with h | h
  · obtain ⟨m, -, hf⟩ := List.mem_map.mp h
    cases hf
    rfl
  · by_cases he : (langMsgsOf mdValid).isEmpty <;> simp [he] at h <;> simp [h]

theorem semBlock_tag (mdValid : List (String × PyDict)) :
    ∀ cm ∈ semBlockOf mdValid, cm.1 = "semver" := by
  intro cm hcm
  rw [semBlockOf] at hcm
  rcases List.mem_append.mp hcm with h | h
  · obtain ⟨m, -, hf⟩ := List.mem_map.mp h
    cases hf
    rfl
  · by_cases he : (semMsgsOf mdValid).isEmpty <;> simp [he] at h <;> simp [h]

theorem filter_tag_nil (l : List (String × String)) (c c' : String)
    (h : ∀ cm ∈ l, cm.1 = c) (hne : ¬c' = c) :
    l.filter (fun cm => cm.1 == c') = [] := by
  rw [List.filter_eq_nil_iff]
  intro cm hcm
  rw [h cm hcm]
  intro hc
  have hcc : c = c' := by simpa using hc
  exact hne hcc.symm

theorem filter_tag_self (l : List (String × String)) (c : String)
    (h : ∀ cm ∈ l, cm.1 = c) :
    l.filter (fun cm => cm.1 == c) = l := by
  rw [List.filter_eq_self]
  intro cm hcm
  simp [h cm hcm]

-- ── Which records the schema checks forward ─────────────────────────────────

theorem mdValidOf_mem (mds : List (String × Option PyValue)) (p : String)
    (kvs : PyDict) :
    (p, kvs) ∈ mdValidOf mds ↔
      ((p, some (PyValue.vDict kvs)) ∈ mds ∧ md_missing kvs = []) := by
  rw [mdValidOf, List.mem_filterMap]
  constructor
  · rintro ⟨⟨p0, fm?⟩, hmem, hf⟩
    match fm? with
    | none => cases hf
    | some (.vDict kvs0) =>
      dsimp only at hf
      by_cases hm : (md_missing kvs0).isEmpty
      · rw [if_pos hm] at hf
        obtain ⟨h1, h2⟩ := Prod.mk.injEq .. ▸ Option.some.inj hf
        subst h1
        subst h2
        exact ⟨hmem, List.isEmpty_iff.mp hm⟩
      · rw [if_neg hm] at hf
        cases hf
    | some .vNone => cases hf
    | some (.vBool b) => cases hf
    | some (.vInt i) => cases hf
    | some (.vStr s) => cases hf
    | some (.vList xs) => cases hf
  · rintro ⟨hmem, hmiss⟩
    exact ⟨(p, some (.vDict kvs)), hmem, by simp [hmiss]⟩

theorem ymlValidOf_mem (ymls : List (String × Option (List PyValue))) (p : String)
    (es : List PyValue) :
    (p, es) ∈ ymlValidOf ymls ↔
      ((p, some es) ∈ ymls ∧ yml_entry_errors es = []) := by
  rw [ymlValidOf, List.mem_filterMap]
  constructor
  · rintro ⟨⟨p0, es?⟩, hmem, hf⟩
    match es? with
    | none => cases hf
    | some es0 =>
      dsimp only at hf
      by_cases hm : (yml_entry_errors es0).isEmpty
      · rw [if_pos hm] at hf
        obtain ⟨h1, h2⟩ := Prod.mk.injEq .. ▸ Option.some.inj hf
        subst h1
        subst h2
        exact ⟨hmem, List.isEmpty_iff.mp hm⟩
      · rw [if_neg hm] at hf
        cases hf
  · rintro ⟨hmem, hmiss⟩
    exact ⟨(p, some es), hmem, by simp [hmiss]⟩

-- ── Claim C5 ────────────────────────────────────────────────────────────────

/-- C5, counterexample: the claim says every record with zero missing
required fields is forwarded to all later checks. But yml validity is per
file: entry `A` is schema-complete with an invalid severity, yet because its
file also holds the incomplete entry `B`, the whole file is excluded — the
valid-file set is empty and no severity failure is ever reported for `A`. -/
theorem C5_counterexample :
    yml_entry_errors [entC5good] = [] ∧
    sevBad entC5good = true ∧
    (ymlValidOf prC5cex.ymls).isEmpty = true ∧
    (errorsOf (runChecks prC5cex)).all (fun cm => cm.1 != "severity") = true ∧
    exitOf (runChecks prC5cex) = 1 := by
  refine ⟨by decide, by decide, by decide, by decide, by decide⟩

/-- C5, amended: a doc record is forwarded to the later checks iff its
frontmatter is a mapping with zero missing required fields; an error entry is
forwarded iff its whole file parses as a list and every entry in the file is
a mapping with zero missing fields (exclusion is per file). Excluded files
are reported naming the missing fields, and the semver failures of a
completed run only ever concern forwarded doc records — a doc record missing
`version` is excluded from the semver check entirely. -/
theorem C5_schema_filtering (pr : ParsedRegistry)
    (hok : okOf (runChecks pr) = true) :
    (∀ p kvs, (p, kvs) ∈ mdValidOf pr.mds ↔
      ((p, some (PyValue.vDict kvs)) ∈ pr.mds ∧ md_missing kvs = [])) ∧
    (∀ p es, (p, es) ∈ ymlValidOf pr.ymls ↔
      ((p, some es) ∈ pr.ymls ∧ yml_entry_errors es = [])) ∧
    (∀ pf cm, pf ∈ pr.mds → md_file_failure pf = some cm →
      cm ∈ errorsOf (runChecks pr)) ∧
    (∀ pe cm, pe ∈ pr.ymls → yml_file_failure pe = some cm →
      cm ∈ errorsOf (runChecks pr)) ∧
    (∀ c m, (c, m) ∈ errorsOf (runChecks pr) → c = "semver" →
      m = semver_summary_fail (semMsgsOf (mdValidOf pr.mds)).length ∨
      ∃ pk ∈ mdValidOf pr.mds,
        isSemver (versionOf pk.2) = false ∧ m = semver_message pk.1 pk.2) := by
  rcases hr : runChecks pr with err | ⟨res, rep, code⟩
  · rw [hr] at hok
    simp [okOf] at hok
  · obtain ⟨he, -, -⟩ := runChecks_ok_decomp pr res rep code hr
    have herr : errorsOf (Except.ok (res, rep, code) :
        Except CrashState (CheckResult × String × Nat)) = errorBlocksOf pr := by
      simp [errorsOf, he]
    refine ⟨mdValidOf_mem pr.mds, ymlValidOf_mem pr.ymls, ?_, ?_, ?_⟩
    · intro pf cm hmem hf
      rw [herr, errorBlocksOf]
      have : cm ∈ mdBlockOf pr.mds := by
        rw [mdBlockOf]
        exact List.mem_append.mpr (Or.inl (List.mem_filterMap.mpr ⟨pf, hmem, hf⟩))
      simp only [List.mem_append]
      tauto
    · intro pe cm hmem hf
      rw [herr, errorBlocksOf]
      have : cm ∈ ymlBlockOf pr.ymls := by
        rw [ymlBlockOf]
        exact List.mem_append.mpr (Or.inl (List.mem_filterMap.mpr ⟨pe, hmem, hf⟩))
      simp only [List.mem_append]
      tauto
    · intro c m hmem hc
      subst hc
      rw [herr, errorBlocksOf] at hmem
      simp only [List.mem_append] at hmem
      rcases hmem with ((((((h | h) | h) | h) | h) | h) | h) | h
      · exact absurd (mdBlock_tag pr.mds _ h) (by simp)
      · exact absurd (ymlBlock_tag pr.ymls _ h) (by simp)
      · exact absurd (dupBlock_tag _ _ _ h) (by simp)
      · exact absurd (relBlock_tag _ _ _ h) (by simp)
      · exact absurd (sevBlock_tag _ _ h) (by simp)
      · exact absurd (catBlock_tag _ _ h) (by simp)
      · exact absurd (langBlock_tag _ _ h) (by simp)
      · rw [semBlockOf] at h
        rcases List.mem_append.mp h with h | h
        · obtain ⟨m0, hm0, hf⟩ := List.mem_map.mp h
          obtain ⟨h1, h2⟩ := Prod.mk.injEq .. ▸ hf
          obtain ⟨pk, hpk, hif⟩ := List.mem_filterMap.mp hm0
          right
          refine ⟨pk, hpk, ?_, ?_⟩
          · by_cases hs : isSemver (versionOf pk.2)
            · rw [if_pos hs] at hif
              cases hif
            · rw [if_neg hs] at hif
              simpa using hs
          · by_cases hs : isSemver (versionOf pk.2)
            · rw [if_pos hs] at hif
              cases hif
            · rw [if_neg hs] at hif
              rw [← h2]
              exact (Option.some.inj hif).symm
        · left
          by_cases hs : (semMsgsOf (mdValidOf pr.mds)).isEmpty
          · rw [if_pos hs] at h
            cases h
          · rw [if_neg hs] at h
            simp only [List.mem_singleton, Prod.mk.injEq] at h
            exact h.2

/-- C5, witness: on the mixed registry, the yml-schema failure naming the
missing fields is in the report, and the forwarding characterization holds
for the mixed file (it is not forwarded since its entry list has errors). -/
theorem C5_witness :
    ("yml-schema", yml_schema_message "errors/mixed.yml" [entC5good, entC5bad]) ∈
      errorsOf (runChecks prC5cex) ∧
    (("errors/mixed.yml", [entC5good, entC5bad]) ∈ ymlValidOf prC5cex.ymls ↔
      (("errors/mixed.yml", some [entC5good, entC5bad]) ∈ prC5cex.ymls ∧
        yml_entry_errors [entC5good, entC5bad] = [])) :=
  ⟨(C5_schema_filtering prC5cex (by decide)).2.2.2.1
      ("errors/mixed.yml", some [entC5good, entC5bad])
      ("yml-schema", yml_schema_message "errors/mixed.yml" [entC5good, entC5bad])
      (List.Mem.head _) rfl,
    (C5_schema_filtering prC5cex (by decide)).2.1 "errors/mixed.yml"
      [entC5good, entC5bad]⟩

-- ── Claim C6 ────────────────────────────────────────────────────────────────

/-- C6, counterexample: the claim says a record with several bad enumerated
fields (e.g. bad severity AND bad version) appears in each matching failure
list. But the severity sub-check only examines error entries and the semver
sub-check only examines doc records: a schema-valid error entry with
severity `bogus` and version `zzz` gets its severity failure, while the
semver failure list stays empty — not "exactly one failure per violating
field per record". -/
theorem C6_counterexample :
    sevBad entC6cex = true ∧
    isSemver (pyStrip (pyStr (entryGetD entC6cex "version" (.vStr "")))) = false ∧
    ("severity", severity_message "errors/e.yml" entC6cex) ∈
      errorsOf (runChecks prC6cex) ∧
    (errorsOf (runChecks prC6cex)).filter (fun cm => cm.1 == "semver") = [] := by
  refine ⟨by decide, by decide, by decide, by decide⟩

/-- C6, amended: in a completed run the four enumerated-value checks are
independent and exhaustive over the records they examine: severity failures
are exactly one message per error entry with an invalid severity (plus the
aggregate line), and category / language / semver failures are exactly one
message per doc record with the respective invalid field (plus aggregates) —
so a doc record with several bad fields appears in each matching list
(e.g. bad category AND bad version are both reported). -/
theorem C6_enum_checks_independent (pr : ParsedRegistry)
    (hok : okOf (runChecks pr) = true) :
    (errorsOf (runChecks pr)).filter (fun cm => cm.1 == "severity") =
      sevBlockOf (ymlValidOf pr.ymls) ∧
    (errorsOf (runChecks pr)).filter (fun cm => cm.1 == "category") =
      catBlockOf (mdValidOf pr.mds) ∧
    (errorsOf (runChecks pr)).filter (fun cm => cm.1 == "language") =
      langBlockOf (mdValidOf pr.mds) ∧
    (errorsOf (runChecks pr)).filter (fun cm => cm.1 == "semver") =
      semBlockOf (mdValidOf pr.mds) := by
  rcases hr : runChecks pr with err | ⟨res, rep, code⟩
  · rw [hr] at hok
    simp [okOf] at hok
  · obtain ⟨he, -, -⟩ := runChecks_ok_decomp pr res rep code hr
    have herr : errorsOf (Except.ok (res, rep, code) :
        Except CrashState (CheckResult × String × Nat)) = errorBlocksOf pr := by
      simp [errorsOf, he]
    rw [herr, errorBlocksOf]
    simp only [List.filter_append]
    refine ⟨?_, ?_, ?_, ?_⟩
    · rw [filter_tag_nil _ _ _ (mdBlock_tag pr.mds) (by decide),
        filter_tag_nil _ _ _ (ymlBlock_tag pr.ymls) (by decide),
        filter_tag_nil _ _ _ (dupBlock_tag _ _) (by decide),
        filter_tag_nil _ _ _ (relBlock_tag _ _) (by decide),
        filter_tag_self _ _ (sevBlock_tag _),
        filter_tag_nil _ _ _ (catBlock_tag _) (by decide),
        filter_tag_nil _ _ _ (langBlock_tag _) (by decide),
        filter_tag_nil _ _ _ (semBlock_tag _) (by decide)]
      simp
    · rw [filter_tag_nil _ _ _ (mdBlock_tag pr.mds) (by decide),
        filter_tag_nil _ _ _ (ymlBlock_tag pr.ymls) (by decide),
        filter_tag_nil _ _ _ (dupBlock_tag _ _) (by decide),
        filter_tag_nil _ _ _ (relBlock_tag _ _) (by decide),
        filter_tag_nil _ _ _ (sevBlock_tag _) (by decide),
        filter_tag_self _ _ (catBlock_tag _),
        filter_tag_nil _ _ _ (langBlock_tag _) (by decide),
        filter_tag_nil _ _ _ (semBlock_tag _) (by decide)]
      simp
    · rw [filter_tag_nil _ _ _ (mdBlock_tag pr.mds) (by decide),
        filter_tag_nil _ _ _ (ymlBlock_tag pr.ymls) (by decide),
        filter_tag_nil _ _ _ (dupBlock_tag _ _) (by decide),
        filter_tag_nil _ _ _ (relBlock_tag _ _) (by decide),
        filter_tag_nil _ _ _ (sevBlock_tag _) (by decide),
        filter_tag_nil _ _ _ (catBlock_tag _) (by decide),
        filter_tag_self _ _ (langBlock_tag _),
        filter_tag_nil _ _ _ (semBlock_tag _) (by decide)]
      simp
    · rw [filter_tag_nil _ _ _ (mdBlock_tag pr.mds) (by decide),
        filter_tag_nil _ _ _ (ymlBlock_tag pr.ymls) (by decide),
        filter_tag_nil _ _ _ (dupBlock_tag _ _) (by decide),
        filter_tag_nil _ _ _ (relBlock_tag _ _) (by decide),
        filter_tag_nil _ _ _ (sevBlock_tag _) (by decide),
        filter_tag_nil _ _ _ (catBlock_tag _) (by decide),
        filter_tag_nil _ _ _ (langBlock_tag _) (by decide),
        filter_tag_self _ _ (semBlock_tag _)]
      simp

-- ── Cleanliness lemmas for the all-green run ────────────────────────────────

theorem nodupStr_nodup (l : List String) (h : nodupStr l = true) : l.Nodup := by
  induction l with
  | nil => exact List.nodup_nil
  | cons x xs ih =>
    rw [nodupStr, Bool.and_eq_true] at h
    refine List.nodup_cons.mpr ⟨?_, ih h.2⟩
    intro hx
    have hcont := (contains_iff_mem xs x).mpr hx
    have h1 := h.1
    rw [hcont] at h1
    simp at h1

theorem mdFailures_nil_of_clean (mds : List (String × Option PyValue))
    (h : mds.all mdFileClean = true) : mdFailuresOf mds = [] := by
  rw [mdFailuresOf, List.filterMap_eq_nil_iff]
  intro pf hpf
  have hc := List.all_eq_true.mp h pf hpf
  obtain ⟨p, fm?⟩ := pf
  match fm? with
  | none => simp [mdFileClean] at hc
  | some (.vDict kvs) =>
    rw [mdFileClean, Bool.and_eq_true, Bool.and_eq_true, Bool.and_eq_true] at hc
    rw [md_file_failure, if_pos hc.1.1.1]
  | some .vNone => simp [mdFileClean] at hc
  | some (.vBool b) => simp [mdFileClean] at hc
  | some (.vInt i) => simp [mdFileClean] at hc
  | some (.vStr s) => simp [mdFileClean] at hc
  | some (.vList xs) => simp [mdFileClean] at hc

theorem yml_entry_errors_nil_of_clean (entries : List PyValue) (ids0 : List String)
    (h : entries.all (ymlEntryClean ids0) = true) : yml_entry_errors entries = [] := by
  rw [yml_entry_errors]
  suffices hgo : ∀ i, yml_entry_errors_go i entries = [] from hgo 0
  induction entries with
  | nil => intro i; rfl
  | cons e rest ih =>
    intro i
    rw [List.all_cons, Bool.and_eq_true] at h
    have hc := h.1
    match e with
    | .vDict kvs =>
      rw [ymlEntryClean, Bool.and_eq_true, Bool.and_eq_true] at hc
      rw [yml_entry_errors_go, if_pos hc.1.1, List.nil_append]
      exact ih h.2 (i + 1)
    | .vNone => simp [ymlEntryClean] at hc
    | .vBool b => simp [ymlEntryClean] at hc
    | .vInt n => simp [ymlEntryClean] at hc
    | .vStr s => simp [ymlEntryClean] at hc
    | .vList xs => simp [ymlEntryClean] at hc

theorem ymlFailures_nil_of_clean (ymls : List (String × Option (List PyValue)))
    (ids0 : List String) (h : ymls.all (ymlFileClean ids0) = true) :
    ymlFailuresOf ymls = [] := by
  rw [ymlFailuresOf, List.filterMap_eq_nil_iff]
  intro pe hpe
  have hc := List.all_eq_true.mp h pe hpe
  obtain ⟨p, es?⟩ := pe
  match es? with
  | none => simp [ymlFileClean] at hc
  | some es =>
    rw [ymlFileClean] at hc
    rw [yml_file_failure, if_pos (by simp [yml_entry_errors_nil_of_clean es ids0 hc])]

theorem entry_ref_failures_clean (p : String) (e : PyValue) (ids ids0 : List String)
    (hc : ymlEntryClean ids0 e = true)
    (hsub : ∀ x, ids0.contains x = true → ids.contains x = true) :
    entry_ref_failures p e ids = some [] := by
  match e with
  | .vDict kvs =>
    rw [ymlEntryClean, Bool.and_eq_true, Bool.and_eq_true] at hc
    have hrel := hc.2
    rw [entry_ref_failures, related_value, related_raw, entryGetD, entryGet]
    rcases hg : dictGet kvs "related_errors" with _ | v
    · simp [truthy, pyIterate]
    · rw [hg] at hrel
      match v with
      | .vNone => simp [truthy, pyIterate]
      | .vList refs =>
        match refs with
        | [] => simp [truthy, pyIterate]
        | r :: rs =>
          simp only [truthy, List.isEmpty_cons, Bool.not_false, if_true]
          rw [pyIterate]
          simp only [Option.some.injEq]
          rw [List.filterMap_eq_nil_iff]
          intro r0 hr0
          rw [if_pos (hsub _ (List.all_eq_true.mp hrel r0 hr0))]
      | .vBool b => simp at hrel
      | .vInt n => simp at hrel
      | .vStr s => simp at hrel
      | .vDict kvs0 => simp at hrel
  | .vNone => simp [ymlEntryClean] at hc
  | .vBool b => simp [ymlEntryClean] at hc
  | .vInt n => simp [ymlEntryClean] at hc
  | .vStr s => simp [ymlEntryClean] at hc
  | .vList xs => simp [ymlEntryClean] at hc

theorem relFileMsgs_nil (p : String) (entries : List PyValue) (ids : List String)
    (h : ∀ e ∈ entries, entry_ref_failures p e ids = some []) :
    relFileMsgs p entries ids = [] := by
  rw [relFileMsgs, List.flatMap_eq_nil_iff]
  intro e he
  rw [h e he]
  rfl

theorem sev_ok_of_clean (e : PyValue) (ids0 : List String)
    (hc : ymlEntryClean ids0 e = true) :
    pyInStrSet (entryGetD e "severity" (.vStr "")) VALID_SEVERITIES = some true := by
  match e with
  | .vDict kvs =>
    rw [ymlEntryClean, Bool.and_eq_true, Bool.and_eq_true] at hc
    have hs := hc.1.2
    rw [entryGetD, entryGet]
    rcases hg : dictGet kvs "severity" with _ | v
    · rw [hg] at hs
      simp at hs
    · rw [hg] at hs
      match v with
      | .vStr s =>
        have hs2 : VALID_SEVERITIES.contains s = true := hs
        simp [pyInStrSet, (contains_iff_mem _ _).mp hs2]
      | .vNone => simp at hs
      | .vBool b => simp at hs
      | .vInt n => simp at hs
      | .vList xs => simp at hs
      | .vDict kvs0 => simp at hs
  | .vNone => simp [ymlEntryClean] at hc
  | .vBool b => simp [ymlEntryClean] at hc
  | .vInt n => simp [ymlEntryClean] at hc
  | .vStr s => simp [ymlEntryClean] at hc
  | .vList xs => simp [ymlEntryClean] at hc

theorem check_md_frontmatter_go_exists (mds : List (String × Option PyValue))
    (h : mds.all mdFileClean = true) :
    ∀ res valid n, ∃ out, check_md_frontmatter_go mds res valid n = .ok out := by
  induction mds with
  | nil => intro res valid n; exact ⟨(res, valid, n), rfl⟩
  | cons pf rest ih =>
    intro res valid n
    rw [List.all_cons, Bool.and_eq_true] at h
    obtain ⟨p, fm?⟩ := pf
    have hc := h.1
    match fm? with
    | none =>
      rw [check_md_frontmatter_go]
      exact ih h.2 _ _ _
    | some (.vDict kvs) =>
      rw [check_md_frontmatter_go]
      by_cases hm : (md_missing kvs).isEmpty
      · rw [if_pos hm]
        exact ih h.2 _ _ _
      · rw [if_neg hm]
        exact ih h.2 _ _ _
    | some .vNone => simp [mdFileClean] at hc
    | some (.vBool b) => simp [mdFileClean] at hc
    | some (.vInt i) => simp [mdFileClean] at hc
    | some (.vStr s) => simp [mdFileClean] at hc
    | some (.vList xs) => simp [mdFileClean] at hc

theorem check_md_frontmatter_clean (mds : List (String × Option PyValue))
    (h : mds.all mdFileClean = true) (res : CheckResult) :
    check_md_frontmatter mds res =
      .ok (res.pass "frontmatter" (md_summary_pass mds.length), mdValidOf mds) := by
  obtain ⟨⟨res0, valid0, n0⟩, hgo⟩ := check_md_frontmatter_go_exists mds h res [] 0
  obtain ⟨h1, h2, h3, h4⟩ := check_md_frontmatter_go_ok mds _ _ _ _ _ _ hgo
  have hF := mdFailures_nil_of_clean mds h
  have hres0 : res0 = res := by
    cases res0
    cases res
    simp only [CheckResult.mk.injEq]
    constructor
    · simpa [hF] using h1
    · simpa using h2
  rw [check_md_frontmatter, hgo]
  dsimp only
  rw [if_pos (by simp [h4, hF])]
  rw [hres0, h3]
  simp

theorem check_related_file_clean (p : String) (entries : List PyValue)
    (ids : List String) (h : ∀ e ∈ entries, entry_ref_failures p e ids = some []) :
    ∀ res n, check_related_file_go p entries ids res n = .ok (res, n) := by
  induction entries with
  | nil => intro res n; rfl
  | cons e rest ih =>
    intro res n
    rw [check_related_file_go, h e (List.mem_cons_self e rest)]
    dsimp only
    simp only [List.foldl_nil, List.length_nil, Nat.add_zero]
    exact ih (fun e' he' => h e' (List.mem_cons_of_mem e he')) res n

theorem check_related_errors_clean (ymlValid : List (String × List PyValue))
    (ids : List String)
    (h : ∀ pe ∈ ymlValid, ∀ e ∈ pe.2, entry_ref_failures pe.1 e ids = some []) :
    ∀ res, check_related_errors ymlValid ids res =
      .ok (res.pass "related-errors" related_summary_pass) := by
  have hgo : ∀ res n, check_related_errors_go ymlValid ids res n = .ok (res, n) := by
    induction ymlValid with
    | nil => intro res n; rfl
    | cons pe rest ih =>
      intro res n
      obtain ⟨p, entries⟩ := pe
      rw [check_related_errors_go,
        check_related_file_clean p entries ids
          (fun e he => h (p, entries) (List.mem_cons_self _ rest) e he) res n]
      exact ih (fun pe' hpe' e he => h pe' (List.mem_cons_of_mem _ hpe') e he) res n
  intro res
  rw [check_related_errors, hgo res 0]
  rfl

theorem check_severity_file_clean (p : String) (entries : List PyValue)
    (h : ∀ e ∈ entries,
      pyInStrSet (entryGetD e "severity" (.vStr "")) VALID_SEVERITIES = some true) :
    ∀ res n, check_severity_file_go p entries res n = .ok (res, n) := by
  induction entries with
  | nil => intro res n; rfl
  | cons e rest ih =>
    intro res n
    rw [check_severity_file_go, h e (List.mem_cons_self e rest)]
    exact ih (fun e' he' => h e' (List.mem_cons_of_mem e he')) res n

theorem check_severity_values_clean (ymlValid : List (String × List PyValue))
    (h : ∀ pe ∈ ymlValid, ∀ e ∈ pe.2,
      pyInStrSet (entryGetD e "severity" (.vStr "")) VALID_SEVERITIES = some true) :
    ∀ res, check_severity_values ymlValid res =
      .ok (res.pass "severity" severity_summary_pass) := by
  have hgo : ∀ res n, check_severity_values_go ymlValid res n = .ok (res, n) := by
    induction ymlValid with
    | nil => intro res n; rfl
    | cons pe rest ih =>
      intro res n
      obtain ⟨p, entries⟩ := pe
      rw [check_severity_values_go,
        check_severity_file_clean p entries
          (fun e he => h (p, entries) (List.mem_cons_self _ rest) e he) res n]
      exact ih (fun pe' hpe' e he => h pe' (List.mem_cons_of_mem _ hpe') e he) res n
  intro res
  rw [check_severity_values, hgo res 0]
  rfl

theorem mdFileClean_fields (p : String) (kvs : PyDict)
    (hc : mdFileClean (p, some (.vDict kvs)) = true) :
    md_missing kvs = [] ∧ VALID_CATEGORIES.contains (categoryOf kvs) = true ∧
    VALID_LANGUAGES.contains (languageOf kvs) = true ∧
    isSemver (versionOf kvs) = true := by
  rw [mdFileClean, Bool.and_eq_true, Bool.and_eq_true, Bool.and_eq_true] at hc
  exact ⟨List.isEmpty_iff.mp hc.1.1.1, hc.1.1.2, hc.1.2, hc.2⟩

theorem catMsgs_nil_of_clean (mds : List (String × Option PyValue))
    (h : mds.all mdFileClean = true) : catMsgsOf (mdValidOf mds) = [] := by
  rw [catMsgsOf, List.filterMap_eq_nil_iff]
  rintro ⟨p, kvs⟩ hpk
  obtain ⟨hmem, -⟩ := (mdValidOf_mem mds p kvs).mp hpk
  obtain ⟨-, hcat, -, -⟩ :=
    mdFileClean_fields p kvs (List.all_eq_true.mp h _ hmem)
  rw [if_pos hcat]

theorem langMsgs_nil_of_clean (mds : List (String × Option PyValue))
    (h : mds.all mdFileClean = true) : langMsgsOf (mdValidOf mds) = [] := by
  rw [langMsgsOf, List.filterMap_eq_nil_iff]
  rintro ⟨p, kvs⟩ hpk
  obtain ⟨hmem, -⟩ := (mdValidOf_mem mds p kvs).mp hpk
  obtain ⟨-, -, hlang, -⟩ :=
    mdFileClean_fields p kvs (List.all_eq_true.mp h _ hmem)
  rw [if_pos hlang]

theorem semMsgs_nil_of_clean (mds : List (String × Option PyValue))
    (h : mds.all mdFileClean = true) : semMsgsOf (mdValidOf mds) = [] := by
  rw [semMsgsOf, List.filterMap_eq_nil_iff]
  rintro ⟨p, kvs⟩ hpk
  obtain ⟨hmem, -⟩ := (mdValidOf_mem mds p kvs).mp hpk
  obtain ⟨-, -, -, hsem⟩ :=
    mdFileClean_fields p kvs (List.all_eq_true.mp h _ hmem)
  rw [if_pos hsem]

theorem sevMsgs_nil_of_clean (ymlValid : List (String × List PyValue))
    (ids0 : List String)
    (h : ∀ pe ∈ ymlValid, pe.2.all (ymlEntryClean ids0) = true) :
    sevMsgsOf ymlValid = [] := by
  rw [sevMsgsOf, List.flatMap_eq_nil_iff]
  intro pe hpe
  rw [List.filterMap_eq_nil_iff]
  intro e he
  have hc := List.all_eq_true.mp (h pe hpe) e he
  have := sev_ok_of_clean e ids0 hc
  rw [if_neg (by simp [sevBad, this])]

theorem relMsgs_nil_of_clean (ymlValid : List (String × List PyValue))
    (ids ids0 : List String)
    (h : ∀ pe ∈ ymlValid, pe.2.all (ymlEntryClean ids0) = true)
    (hsub : ∀ x, ids0.contains x = true → ids.contains x = true) :
    relMsgsOf ymlValid ids = [] := by
  rw [relMsgsOf, List.flatMap_eq_nil_iff]
  intro pe hpe
  exact relFileMsgs_nil pe.1 pe.2 ids (fun e he =>
    entry_ref_failures_clean pe.1 e ids ids0
      (List.all_eq_true.mp (h pe hpe) e he) hsub)

/-- C6, witness: a doc record with bad category, language and version at
once, next to an error entry with bad severity: each filtered failure list
equals its check's block, so all four violations are reported. -/
theorem C6_witness :
    (errorsOf (runChecks prC6w)).filter (fun cm => cm.1 == "severity") =
      sevBlockOf (ymlValidOf prC6w.ymls) ∧
    (errorsOf (runChecks prC6w)).filter (fun cm => cm.1 == "category") =
      catBlockOf (mdValidOf prC6w.mds) ∧
    (errorsOf (runChecks prC6w)).filter (fun cm => cm.1 == "language") =
      langBlockOf (mdValidOf prC6w.mds) ∧
    (errorsOf (runChecks prC6w)).filter (fun cm => cm.1 == "semver") =
      semBlockOf (mdValidOf prC6w.mds) :=
  C6_enum_checks_independent prC6w (by decide)

-- ── Claim C2 ────────────────────────────────────────────────────────────────

/-- C2: on every registry with zero malformed files, zero missing-field
records, zero duplicate identifiers, zero broken references, and all
enumerated fields (severity, category, language, version) valid, none of the
eight checks records a failure — the run completes with an empty error list,
eight pass messages, and exit status 0. -/
theorem C2_clean_registry_exit_zero (pr : ParsedRegistry)
    (h : cleanParsed pr = true) :
    okOf (runChecks pr) = true ∧
    errorsOf (runChecks pr) = [] ∧
    exitOf (runChecks pr) = 0 ∧
    (passesOf (runChecks pr)).length = 8 := by
  rw [cleanParsed, Bool.and_eq_true, Bool.and_eq_true] at h
  obtain ⟨⟨hmd, hyml⟩, hnd⟩ := h
  have hFile : ∀ pe ∈ ymlValidOf pr.ymls,
      pe.2.all (ymlEntryClean (gatherIds pr)) = true := by
    rintro ⟨p, es⟩ hpe
    obtain ⟨hmem, -⟩ := (ymlValidOf_mem pr.ymls p es).mp hpe
    exact List.all_eq_true.mp hyml _ hmem
  have hsub : ∀ x, (gatherIds pr).contains x = true →
      (allIdsOf pr).contains x = true := by
    intro x hx
    rw [contains_iff_mem] at hx ⊢
    rw [gatherIds] at hx
    show x ∈ mapKeys (id_locations (mdValidOf pr.mds) (ymlValidOf pr.ymls))
    rw [id_locations_eq_buildMap, mem_mapKeys_buildMap]
    exact hx
  have hclean_entries : ∀ pe ∈ ymlValidOf pr.ymls, ∀ e ∈ pe.2,
      entry_ref_failures pe.1 e
        ((id_locations (mdValidOf pr.mds) (ymlValidOf pr.ymls)).map (·.1)) =
        some [] := by
    intro pe hpe e he
    exact entry_ref_failures_clean pe.1 e _ (gatherIds pr)
      (List.all_eq_true.mp (hFile pe hpe) e he) hsub
  have hsev : ∀ pe ∈ ymlValidOf pr.ymls, ∀ e ∈ pe.2,
      pyInStrSet (entryGetD e "severity" (.vStr "")) VALID_SEVERITIES = some true :=
    fun pe hpe e he => sev_ok_of_clean e _ (List.all_eq_true.mp (hFile pe hpe) e he)
  have hrun : ∃ res rep code, runChecks pr = .ok (res, rep, code) := by
    rw [runChecks, check_md_frontmatter_clean pr.mds hmd]
    dsimp only
    rw [check_yml_entries_eq]
    dsimp only
    rw [check_no_duplicate_ids_eq]
    dsimp only
    rw [check_related_errors_clean _ _ hclean_entries]
    dsimp only
    rw [check_severity_values_clean _ hsev]
    exact ⟨_, _, _, rfl⟩
  obtain ⟨res, rep, code, hr⟩ := hrun
  obtain ⟨he, hp, -⟩ := runChecks_ok_decomp pr res rep code hr
  have hF1 : mdFailuresOf pr.mds = [] := mdFailures_nil_of_clean pr.mds hmd
  have hF2 : ymlFailuresOf pr.ymls = [] :=
    ymlFailures_nil_of_clean pr.ymls (gatherIds pr) hyml
  have hF3 : duplicates_of (id_locations (mdValidOf pr.mds) (ymlValidOf pr.ymls)) = [] := by
    apply duplicates_empty_of_nodup
    have := nodupStr_nodup _ hnd
    simpa [gatherIds] using this
  have hF4 : relMsgsOf (ymlValidOf pr.ymls) (allIdsOf pr) = [] :=
    relMsgs_nil_of_clean _ _ (gatherIds pr) hFile hsub
  have hF5 : sevMsgsOf (ymlValidOf pr.ymls) = [] :=
    sevMsgs_nil_of_clean _ (gatherIds pr) hFile
  have hF6 : catMsgsOf (mdValidOf pr.mds) = [] := catMsgs_nil_of_clean pr.mds hmd
  have hF7 : langMsgsOf (mdValidOf pr.mds) = [] := langMsgs_nil_of_clean pr.mds hmd
  have hF8 : semMsgsOf (mdValidOf pr.mds) = [] := semMsgs_nil_of_clean pr.mds hmd
  have herr : res.errors = [] := by
    rw [he, errorBlocksOf]
    simp [mdBlockOf, ymlBlockOf, dupBlockOf, relBlockOf, sevBlockOf, catBlockOf,
      langBlockOf, semBlockOf, hF1, hF2, hF3, hF4, hF5, hF6, hF7, hF8]
  have hpass : res.passes.length = 8 := by
    rw [hp, passBlocksOf]
    simp [hF1, hF2, hF3, hF4, hF5, hF6, hF7, hF8]
  have hc := runChecks_ok_code pr res rep code hr
  refine ⟨by simp [okOf, hr], by simp [errorsOf, hr, herr], ?_,
    by simp [passesOf, hr, hpass]⟩
  simp [exitOf, hr, hc, herr]

/-- C2, witness: a registry with one well-formed doc record and one
well-formed error entry whose reference resolves: all eight checks pass and
the exit status is 0. -/
theorem C2_witness :
    okOf (runChecks prCleanW) = true ∧
    errorsOf (runChecks prCleanW) = [] ∧
    exitOf (runChecks prCleanW) = 0 ∧
    (passesOf (runChecks prCleanW)).length = 8 :=
  C2_clean_registry_exit_zero prCleanW (by decide)

end Validate
